import Mathlib

/-!
# HealthTranslate: the turn-taking and translation orchestrator

A shallow embedding of `src/pages/Translation.jsx`,
`src/components/translation/SpeechButton.jsx` and `src/pages/Phrases.jsx`.

* The React state of the `Translation` component is the record `State`; every
  `setX(v)` call is the record update `{ st with x := v }`.
* External calls (`InvokeLLM`, `Session.get`, `Session.update`, `navigate`,
  `console.log`, `console.error`, `setTimeout`) are recorded, in order, in a log
  of `Effect`s.
* An `async` handler is cut at its `await`: `h.call` is the part that runs
  synchronously up to the `await`, `h.settle` is the part that runs when the
  awaited promise settles with an `Outcome`.  The setters write constants, so
  the second part is a transformer of whatever the state is at that moment.
* `World` adds what is in flight (timers, unsettled promises) and `step` is the
  reaction of the page to one event.
-/

namespace HealthTranslate

/-! ## JavaScript values -/

/-- The code points ECMAScript calls WhiteSpace or LineTerminator: the ones
`String.prototype.trim` strips.  All of them are in the basic plane, so code
points and UTF-16 code units agree on them. -/
def isJsWhiteSpace (c : Char) : Bool :=
  let n := c.toNat
  n == 0x09 || n == 0x0A || n == 0x0B || n == 0x0C || n == 0x0D || n == 0x20 ||
  n == 0xA0 || n == 0x1680 || (decide (0x2000 ≤ n) && decide (n ≤ 0x200A)) ||
  n == 0x2028 || n == 0x2029 || n == 0x202F || n == 0x205F || n == 0x3000 ||
  n == 0xFEFF

/-- The method `String.prototype.trim`: white space is dropped at both ends. -/
def jsTrim (s : String) : String :=
  ⟨((s.data.dropWhile isJsWhiteSpace).reverse.dropWhile isJsWhiteSpace).reverse⟩

/-- Truthiness of a JavaScript string: every string but the empty one. -/
def jsTruthy (s : String) : Bool :=
  !s.data.isEmpty

/-- A string-or-null value inside a template literal: `null` prints as "null". -/
def jsStr : Option String → String
  | none => "null"
  | some s => s

/-- How an awaited promise settles. -/
inductive Outcome (α : Type) where
  | resolved (value : α)
  | rejected (error : String)
deriving DecidableEq, Repr

/-! ## Data model -/

/-- The two values of `userType` that `Translation` passes to its two
`SpeechButton`s: the literals 'clinician' and 'patient'. -/
inductive UserType where
  | clinician
  | patient
deriving DecidableEq, Repr

/-- The other side of the conversation. -/
def UserType.other : UserType → UserType
  | .clinician => .patient
  | .patient => .clinician

/-- A session record as the persistence service returns it (the fields written
by `Session.create` in `Dashboard.jsx` and by `Session.update` here). -/
structure Session where
  id : String
  clinician_id : String
  patient_language : String
  start_time : String
  session_status : String
  end_time : Option String
deriving DecidableEq, Repr

/-- The `useState` cells of `Translation`, with their initial values. -/
structure State where
  session : Option Session := none
  isListening : Bool := false
  activeUser : Option UserType := none
  clinicianText : String := ""
  patientText : String := ""
  isTranslating : Bool := false
  sessionActive : Bool := true
deriving DecidableEq, Repr

/-- The state of a freshly mounted `Translation`. -/
def State.initial : State := {}

/-- The text slot of a side: `clinicianText` or `patientText`. -/
def State.text (st : State) : UserType → String
  | .clinician => st.clinicianText
  | .patient => st.patientText

/-- What `Translation` reads from outside its state: the two URL parameters
and the imported `createPageUrl` (of "@/utils", not part of the sources). -/
structure Env where
  sessionId : Option String
  selectedLanguage : Option String
  createPageUrl : String → String

/-- The calls that leave the components.  `setTimeout` is the timer set by a
`SpeechButton`, `setPlayingTimeout` the one set by `translateAndSpeak`. -/
inductive Effect where
  | invokeLLM (prompt : String)
  | consoleLog (message : String)
  | consoleError (label : String) (error : String)
  | sessionGet (id : String)
  | sessionUpdate (id : String) (session_status : String) (end_time : String)
  | navigate (url : String)
  | setTimeout (userType : UserType) (delay : Nat)
  | setPlayingTimeout (delay : Nat)
deriving DecidableEq, Repr

/-- A handler run up to its first `await` (or to its end): the state it leaves,
the calls it made, and the prompt of the `InvokeLLM` call it now awaits, if any. -/
structure Suspended where
  st : State
  log : List Effect
  awaiting : Option String
deriving DecidableEq, Repr

/-- A handler run to its end: the state it leaves, the calls it made, and how its
promise settles (`ok`: fulfilled, `error e`: rejected with `e`). -/
structure Finished (α : Type) where
  st : State
  log : List Effect
  completion : Except String α

/-! ## `Translation.jsx`: translateText, speakText -/

/-- The template literal of `translateText`. -/
def translatePrompt (text : String) (fromLang toLang : Option String) : String :=
  "Translate the following " ++ jsStr fromLang ++ " text to " ++ jsStr toLang ++
    ". Only return the translation, nothing else: \"" ++ text ++ "\""

/-- `translateText(text, fromLang, toLang)` up to its `await`:
`setIsTranslating(true)`, then `InvokeLLM` is called on the prompt. -/
def translateText.call (text : String) (fromLang toLang : Option String) (st : State) :
    Suspended :=
  let st := { st with isTranslating := true }
  let prompt := translatePrompt text fromLang toLang
  { st := st, log := [Effect.invokeLLM prompt], awaiting := some prompt }

/-- `translateText` from its `await` on: the `try` returns the response, the
`catch` logs and returns the fallback, the `finally` runs `setIsTranslating(false)`. -/
def translateText.settle (o : Outcome String) (st : State) : Finished String :=
  match o with
  | .resolved response =>
    { st := { st with isTranslating := false }, log := [], completion := .ok response }
  | .rejected error =>
    { st := { st with isTranslating := false },
      log := [Effect.consoleError "Translation error:" error],
      completion := .ok "Translation unavailable" }

/-- `speakText(text, language)`: one `console.log`. -/
def speakText (text : String) (language : Option String) : List Effect :=
  [Effect.consoleLog ("Speaking in " ++ jsStr language ++ ": " ++ text)]

/-! ## `Translation.jsx`: handleSpeechStart, handleSpeechEnd -/

/-- `handleSpeechStart(userType)`. -/
def handleSpeechStart (userType : UserType) (st : State) : State :=
  let st := { st with isListening := true }
  { st with activeUser := some userType }

/-- `handleSpeechEnd(userType, spokenText)` up to the `await` inside
`translateText` (or to the early `return`). -/
def handleSpeechEnd.call (env : Env) (userType : UserType) (spokenText : String)
    (st : State) : Suspended :=
  let st := { st with isListening := false }
  let st := { st with activeUser := none }
  if !jsTruthy (jsTrim spokenText) then
    { st := st, log := [], awaiting := none }
  else if userType = .clinician then
    let st := { st with clinicianText := spokenText }
    translateText.call spokenText (some "English") env.selectedLanguage st
  else
    let st := { st with patientText := spokenText }
    translateText.call spokenText env.selectedLanguage (some "English") st

/-- `handleSpeechEnd(userType, _)` from the `await` on: `translateText` finishes,
its value goes to the other side's slot and is spoken.  There is no `try` here: a
rejection of `translateText` would reject `handleSpeechEnd`. -/
def handleSpeechEnd.settle (env : Env) (userType : UserType) (o : Outcome String)
    (st : State) : Finished Unit :=
  let r := translateText.settle o st
  match r.completion with
  | .error e => { st := r.st, log := r.log, completion := .error e }
  | .ok translated =>
    if userType = .clinician then
      { st := { r.st with patientText := translated },
        log := r.log ++ speakText translated env.selectedLanguage,
        completion := .ok () }
    else
      { st := { r.st with clinicianText := translated },
        log := r.log ++ speakText translated (some "English"),
        completion := .ok () }

/-- `handleSpeechEnd(userType, spokenText)` run from start to end with nothing in
between, `InvokeLLM` being the given function of the prompt (a mock of the
external call). -/
def handleSpeechEnd (InvokeLLM : String → Outcome String) (env : Env)
    (userType : UserType) (spokenText : String) (st : State) : Finished Unit :=
  let s := handleSpeechEnd.call env userType spokenText st
  match s.awaiting with
  | none => { st := s.st, log := s.log, completion := .ok () }
  | some prompt =>
    let f := handleSpeechEnd.settle env userType (InvokeLLM prompt) s.st
    { st := f.st, log := s.log ++ f.log, completion := f.completion }

/-! ## `Translation.jsx`: the mount effect, handleEndSession, handleOpenPhrases -/

/-- The body of the `useEffect`: with a truthy `sessionId`, `loadSession()` runs
up to its `await Session.get(sessionId)`; otherwise the page navigates away.
The flag tells whether `Session.get` is now awaited. -/
def mountEffect (env : Env) (st : State) : State × List Effect × Bool :=
  match env.sessionId with
  | some id =>
    if jsTruthy id then (st, [Effect.sessionGet id], true)
    else (st, [Effect.navigate (env.createPageUrl "Dashboard")], false)
  | none => (st, [Effect.navigate (env.createPageUrl "Dashboard")], false)

/-- `loadSession` from its `await` on: `setSession(sessionData)` in the `try`,
`navigate(createPageUrl("Dashboard"))` in the `catch`. -/
def loadSession.settle (env : Env) (o : Outcome Session) (st : State) : Finished Unit :=
  match o with
  | .resolved sessionData =>
    { st := { st with session := some sessionData }, log := [], completion := .ok () }
  | .rejected _ =>
    { st := st, log := [Effect.navigate (env.createPageUrl "Dashboard")],
      completion := .ok () }

/-- `handleEndSession()` run from start to end; `update` is how the
`Session.update` promise settles if the call is made, `now` is
`new Date().toISOString()`. -/
def handleEndSession (update : Outcome Session) (now : String) (env : Env)
    (st : State) : Finished Unit :=
  let log₁ : List Effect :=
    match env.sessionId with
    | some id =>
      if jsTruthy id then
        match update with
        | .resolved _ => [Effect.sessionUpdate id "ended" now]
        | .rejected error =>
          [Effect.sessionUpdate id "ended" now,
           Effect.consoleError "Error ending session:" error]
      else []
    | none => []
  { st := { st with sessionActive := false },
    log := log₁ ++ [Effect.navigate (env.createPageUrl "Dashboard")],
    completion := .ok () }

/-- `handleOpenPhrases()`. -/
def handleOpenPhrases (env : Env) (st : State) : Finished Unit :=
  { st := st,
    log := [Effect.navigate (env.createPageUrl
      ("Phrases?sessionId=" ++ jsStr env.sessionId ++ "&language=" ++
        jsStr env.selectedLanguage))],
    completion := .ok () }

/-! ## URL parameters: how a page reads its query string -/

/-- The pieces of a list of characters between the occurrences of `sep`. -/
def splitChars (sep : Char) : List Char → List (List Char)
  | [] => [[]]
  | c :: cs =>
    if c = sep then [] :: splitChars sep cs
    else
      match splitChars sep cs with
      | [] => [[c]]
      | piece :: pieces => (c :: piece) :: pieces

/-- The query of a URL given as path, "?", query and an optional "#" with a
fragment: `window.location.search` without its leading "?". -/
def searchOf (url : String) : List Char :=
  ((url.data.takeWhile fun c => c != '#').dropWhile fun c => c != '?').drop 1

/-- The lookup `new URLSearchParams(search).get(name)`, as `Translation` and
`Phrases` do it for 'sessionId' and 'language': the pairs are separated by "&",
empty ones are skipped, name and value are separated by the first "=", and the
value of the first pair with the given name is returned, or null.  `decode`
stands for the built-in decoding of names and values ("+" to space, then percent
escapes). -/
def urlParamsGet (decode : String → String) (search : List Char) (name : String) :
    Option String :=
  ((splitChars '&' search).filter fun pair => !pair.isEmpty).findSome? fun pair =>
    if decode ⟨pair.takeWhile fun c => c != '='⟩ = name then
      some (decode ⟨(pair.dropWhile fun c => c != '=').drop 1⟩)
    else none

/-- The part of the behaviour of the built-in decoding that is needed: a string
without "+" and "%" is left as it is. -/
def DecodesPlain (decode : String → String) : Prop :=
  ∀ s : String, (∀ c ∈ s.data, c ≠ '+' ∧ c ≠ '%') → decode s = s

/-- The characters that the query syntax reserves and `handleOpenPhrases` does
not escape. -/
def isReservedInQuery (c : Char) : Bool :=
  c == '&' || c == '#' || c == '+' || c == '%'

/-! ## `SpeechButton.jsx` -/

/-- The canned utterance of the timer callback in `handleMouseDown`. -/
def simulatedSpeech (userType : UserType) : String :=
  if userType = .clinician then "Hello, I'm Dr. Smith. What brings you in today?"
  else "I have been experiencing chest pain since yesterday."

/-- The `isListening` prop `Translation` passes to the `SpeechButton` of a side. -/
def isListeningProp (side : UserType) (st : State) : Bool :=
  st.isListening && decide (st.activeUser = some side)

/-- The `disabled` prop `Translation` passes to the `SpeechButton` of a side. -/
def disabledProp (side : UserType) (st : State) : Bool :=
  st.isListening && decide (st.activeUser ≠ some side)

/-! ## The page as a reactive system -/

/-- The page between two events: the state of `Translation`, the `pressTime`
cell of each `SpeechButton`, the timers set by `handleMouseDown` that have not
fired (oldest first; they all have the same delay, so they fire in this order),
the `handleSpeechEnd` activations waiting for `InvokeLLM` (oldest first),
whether `Session.get` is awaited, and the calls made so far. -/
structure World where
  st : State := {}
  pressTimeClinician : Option Nat := none
  pressTimePatient : Option Nat := none
  timers : List UserType := []
  calls : List UserType := []
  getPending : Bool := false
  log : List Effect := []
deriving DecidableEq, Repr

/-- The `pressTime` cell of a side's button. -/
def World.pressTime (w : World) : UserType → Option Nat
  | .clinician => w.pressTimeClinician
  | .patient => w.pressTimePatient

/-- The call `setPressTime(v)` in a side's button. -/
def World.setPressTime (w : World) (side : UserType) (v : Option Nat) : World :=
  match side with
  | .clinician => { w with pressTimeClinician := v }
  | .patient => { w with pressTimePatient := v }

/-- `handleMouseDown` of the button of `userType`, given its `disabled` prop and
`Date.now()`: `onSpeechStart` is `handleSpeechStart`, and a timer of 2000 ms is set. -/
def handleMouseDown (disabled : Bool) (userType : UserType) (now : Nat) (w : World) :
    World :=
  if disabled then w
  else
    let w := w.setPressTime userType (some now)
    let w := { w with st := handleSpeechStart userType w.st }
    { w with timers := w.timers ++ [userType],
             log := w.log ++ [Effect.setTimeout userType 2000] }

/-- The callback given to `setTimeout` by the button of `userType`:
`onSpeechEnd(userType, simulatedSpeech)` is `handleSpeechEnd`, which runs up to its
`await`; then `setPressTime(null)`. -/
def timerCallback (env : Env) (userType : UserType) (w : World) : World :=
  let s := handleSpeechEnd.call env userType (simulatedSpeech userType) w.st
  let w := { w with st := s.st, log := w.log ++ s.log,
                    calls := match s.awaiting with
                      | none => w.calls
                      | some _ => w.calls ++ [userType] }
  w.setPressTime userType none

/-- `handleMouseUp` of the button of `userType`, given `Date.now()`. -/
def handleMouseUp (userType : UserType) (now : Nat) (w : World) : World :=
  match w.pressTime userType with
  | none => w
  | some pressTime =>
    if pressTime ≠ 0 then
      let duration : Int := (now : Int) - (pressTime : Int)
      if duration < 500 then w.setPressTime userType none else w
    else w

/-- What can happen to a mounted page. -/
inductive Event where
  | sessionSettled (o : Outcome Session)
  | mouseDown (side : UserType) (now : Nat)
  | mouseUp (side : UserType) (now : Nat)
  | timeout
  | llmSettled (i : Nat) (o : Outcome String)
deriving DecidableEq, Repr

/-- The page right after mounting: initial state, mount effect run. -/
def mount (env : Env) : World :=
  let m := mountEffect env State.initial
  { st := m.1, log := m.2.1, getPending := m.2.2 }

/-- The reaction of the page to one event.  The two `SpeechButton`s exist only
once `session` is set (before that the component returns the spinner).
`timeout` fires the oldest timer; `llmSettled i o` settles the `i`-th waiting
`InvokeLLM` call with `o`. -/
def step (env : Env) (w : World) : Event → World
  | .sessionSettled o =>
    if w.getPending then
      let f := loadSession.settle env o w.st
      { w with st := f.st, log := w.log ++ f.log, getPending := false }
    else w
  | .mouseDown side now =>
    if w.st.session.isSome then handleMouseDown (disabledProp side w.st) side now w
    else w
  | .mouseUp side now =>
    if w.st.session.isSome then handleMouseUp side now w else w
  | .timeout =>
    match w.timers with
    | [] => w
    | userType :: rest => timerCallback env userType { w with timers := rest }
  | .llmSettled i o =>
    match w.calls.get? i with
    | none => w
    | some userType =>
      let f := handleSpeechEnd.settle env userType o w.st
      { w with st := f.st, log := w.log ++ f.log, calls := w.calls.eraseIdx i }

/-- The page after a sequence of events since mounting. -/
def run (env : Env) (events : List Event) : World :=
  events.foldl (step env) (mount env)

/-- Whether a call is a call of `InvokeLLM`. -/
def Effect.isInvokeLLM : Effect → Bool
  | .invokeLLM _ => true
  | _ => false

/-- Whether a call is a call of `Session.update`. -/
def Effect.isSessionUpdate : Effect → Bool
  | .sessionUpdate _ _ _ => true
  | _ => false

/-! ## `Phrases.jsx`: the phrase filter -/

/-- `PHRASE_CATEGORIES`, as its entries in insertion order: the order
`Object.entries` gives, no key being an array index. -/
def PHRASE_CATEGORIES : List (String × List String) :=
  [("Greeting & Intake",
     ["Hello, my name is Dr. [Name]",
      "How are you feeling today?",
      "What brings you in today?",
      "Can you tell me about your symptoms?",
      "When did this start?"]),
   ("Symptoms",
     ["Can you point to where it hurts?",
      "How would you rate your pain from 1 to 10?",
      "Is the pain sharp or dull?",
      "Does the pain come and go?",
      "Are you experiencing any nausea?"]),
   ("Medical History",
     ["Are you taking any medications?",
      "Do you have any allergies?",
      "Have you had this problem before?",
      "Do you have any chronic conditions?",
      "Have you had any surgeries?"]),
   ("Examination",
     ["I need to examine you now",
      "Please take a deep breath",
      "Can you open your mouth?",
      "I'm going to check your blood pressure",
      "Please roll up your sleeve"]),
   ("Next Steps",
     ["We need to run some tests",
      "I'm going to prescribe some medication",
      "You should follow up in one week",
      "Please rest and drink plenty of fluids",
      "Call if your symptoms get worse"])]

/-- The method `String.prototype.includes`: `search` occurs in `s` as a run of
consecutive characters. -/
def jsIncludes (s search : String) : Bool :=
  decide (search.data <:+: s.data)

/-- The assignment `acc[key] = value` on an object given by its entries in
insertion order: a key already there keeps its place, a new key goes last. -/
def objSet (acc : List (String × List String)) (key : String) (value : List String) :
    List (String × List String) :=
  if acc.any (fun e => e.1 == key) then
    acc.map (fun e => if e.1 == key then (e.1, value) else e)
  else acc ++ [(key, value)]

/-- The test inside `phrases.filter(...)`.  `toLowerCase` stands for the built-in
`String.prototype.toLowerCase`. -/
def phraseMatches (toLowerCase : String → String) (searchTerm category phrase : String) :
    Bool :=
  jsIncludes (toLowerCase phrase) (toLowerCase searchTerm) ||
  jsIncludes (toLowerCase category) (toLowerCase searchTerm)

/-- The callback of the `reduce` in `filteredCategories`. -/
def filterReducer (toLowerCase : String → String) (searchTerm : String)
    (acc : List (String × List String)) (entry : String × List String) :
    List (String × List String) :=
  let category := entry.1
  let phrases := entry.2
  let filteredPhrases := phrases.filter (phraseMatches toLowerCase searchTerm category)
  if filteredPhrases.length > 0 then objSet acc category filteredPhrases else acc

/-- `filteredCategories`, as a function of the `searchTerm` cell:
`Object.entries(PHRASE_CATEGORIES).reduce(..., {})`. -/
def filteredCategories (toLowerCase : String → String) (searchTerm : String) :
    List (String × List String) :=
  PHRASE_CATEGORIES.foldl (filterReducer toLowerCase searchTerm) []

/-- The phrase filter in the words of the specification: of every category, in the
original order, the phrases, in their order, whose lowercased text or whose
lowercased category contains the lowercased query; categories left without a
phrase are dropped. -/
def filterAsSpecified (toLowerCase : String → String) (q : String) :
    List (String × List String) :=
  (PHRASE_CATEGORIES.map fun e =>
      (e.1, e.2.filter fun phrase =>
        jsIncludes (toLowerCase phrase) (toLowerCase q) ||
        jsIncludes (toLowerCase e.1) (toLowerCase q))).filter
    fun e => !e.2.isEmpty

/-- The (category, phrase) pairs of a list of categories, in order. -/
def pairsOf (categories : List (String × List String)) : List (String × String) :=
  categories.flatMap fun e => e.2.map fun phrase => (e.1, phrase)

/-- Lowercasing of the letters A to Z only: what `toLowerCase` does on a string
of ASCII characters. -/
def asciiToLowerCase (s : String) : String :=
  ⟨s.data.map Char.toLower⟩

/-- The part of the behaviour of the built-in `toLowerCase` that the fixed phrase
set needs: on strings of ASCII characters it lowercases A to Z and nothing else. -/
def LowersAscii (toLowerCase : String → String) : Prop :=
  ∀ s : String, (∀ c ∈ s.data, c.toNat < 128) → toLowerCase s = asciiToLowerCase s

/-! ## `Phrases.jsx`: translateAndSpeak -/

/-- The `useState` cells of `Phrases`, with their initial values. -/
structure PhrasesState where
  searchTerm : String := ""
  playingPhrase : Option String := none
  isTranslating : Bool := false
deriving DecidableEq, Repr

/-- The phrase page between two events: its state, the phrases whose
`translateAndSpeak` activation waits for `InvokeLLM` (oldest first), the number of
pending `setTimeout` callbacks, and the calls made so far. -/
structure PhrasesWorld where
  st : PhrasesState := {}
  calls : List String := []
  timers : Nat := 0
  log : List Effect := []
deriving DecidableEq, Repr

/-- The template literal of `translateAndSpeak`. -/
def phrasePrompt (selectedLanguage : Option String) (phrase : String) : String :=
  "Translate this English medical phrase to " ++ jsStr selectedLanguage ++
    ". Only return the translation: \"" ++ phrase ++ "\""

/-- The `disabled` prop of the Speak button of a phrase. -/
def speakDisabled (phrase : String) (st : PhrasesState) : Bool :=
  st.isTranslating || decide (st.playingPhrase = some phrase)

/-- `translateAndSpeak(phrase)` up to its `await`. -/
def translateAndSpeak.call (env : Env) (phrase : String) (w : PhrasesWorld) :
    PhrasesWorld :=
  let st := { w.st with playingPhrase := some phrase }
  let st := { st with isTranslating := true }
  { w with st := st,
           log := w.log ++ [Effect.invokeLLM (phrasePrompt env.selectedLanguage phrase)],
           calls := w.calls ++ [phrase] }

/-- `translateAndSpeak` from its `await` on: the `try` logs the spoken
translation and sets the timer of 2000 ms, the `catch` logs the error and runs
`setPlayingPhrase(null)`, the `finally` runs `setIsTranslating(false)`. -/
def translateAndSpeak.settle (env : Env) (o : Outcome String) (w : PhrasesWorld) :
    PhrasesWorld :=
  match o with
  | .resolved translation =>
    { w with st := { w.st with isTranslating := false },
             log := w.log ++
               [Effect.consoleLog
                  ("Speaking in " ++ jsStr env.selectedLanguage ++ ": " ++ translation),
                Effect.setPlayingTimeout 2000],
             timers := w.timers + 1 }
  | .rejected error =>
    { w with st := { w.st with playingPhrase := none, isTranslating := false },
             log := w.log ++ [Effect.consoleError "Translation error:" error] }

/-- What can happen to a mounted phrase page: typing in the search box, a click
on the Speak button of a phrase, the `i`-th waiting `InvokeLLM` call settling, a
timer firing. -/
inductive PhrasesEvent where
  | search (value : String)
  | click (phrase : String)
  | llmSettled (i : Nat) (o : Outcome String)
  | timeout
deriving DecidableEq, Repr

/-- The reaction of the phrase page to one event.  A click is on any phrase (the
page shows the buttons of the phrases that pass the filter); a disabled button
does not call `onClick`. -/
def stepPhrases (env : Env) (w : PhrasesWorld) : PhrasesEvent → PhrasesWorld
  | .search value => { w with st := { w.st with searchTerm := value } }
  | .click phrase =>
    if speakDisabled phrase w.st then w else translateAndSpeak.call env phrase w
  | .llmSettled i o =>
    match w.calls.get? i with
    | none => w
    | some _ => translateAndSpeak.settle env o { w with calls := w.calls.eraseIdx i }
  | .timeout =>
    if w.timers = 0 then w
    else { w with st := { w.st with playingPhrase := none }, timers := w.timers - 1 }

/-- The phrase page after a sequence of events since mounting. -/
def runPhrases (env : Env) (events : List PhrasesEvent) : PhrasesWorld :=
  events.foldl (stepPhrases env) {}

/-- One translation at a time: a call waits for `InvokeLLM` exactly when
`isTranslating` is true, and then it is the only one. -/
def OneInFlight (w : PhrasesWorld) : Prop :=
  w.calls.length = if w.st.isTranslating then 1 else 0

/-! ## Invariants of the page -/

/-- The two cells written together by `handleSpeechStart` and by
`handleSpeechEnd`: listening exactly when an active user is recorded. -/
def ListeningIffActive (st : State) : Prop :=
  st.isListening = true ↔ st.activeUser ≠ none

/-- A capture, a translation or a timer exists only on a page whose session is
loaded, that is, whose `SpeechButton`s are shown. -/
def ButtonsShownWhenBusy (w : World) : Prop :=
  (w.st.isListening = true ∨ w.st.isTranslating = true ∨ w.timers ≠ []) →
    w.st.session.isSome = true

/-! ## Sample data -/

/-- A sample environment: a Polish session "s1". -/
def sampleEnv : Env :=
  { sessionId := some "s1", selectedLanguage := some "Polish",
    createPageUrl := fun page => "/" ++ page }

/-- A sample session record. -/
def sampleSession : Session :=
  { id := "s1", clinician_id := "u1", patient_language := "Polish",
    start_time := "2024-01-01T00:00:00.000Z", session_status := "active",
    end_time := none }

/-! ## Lemmas on JavaScript strings -/

theorem dropWhile_all_iff (p : Char → Bool) (l : List Char) :
    (∀ c ∈ l.dropWhile p, p c = true) ↔ ∀ c ∈ l, p c = true := by
  induction l with
  | nil => simp
  | cons a l ih =>
    by_cases ha : p a = true
    · simp [List.dropWhile_cons, ha, ih]
    · simp [List.dropWhile_cons, ha]

/-- The test `!spokenText.trim()` succeeds exactly on the strings made of white
space only (the empty string among them). -/
theorem not_trim_iff (s : String) :
    (!jsTruthy (jsTrim s)) = true ↔ ∀ c ∈ s.data, isJsWhiteSpace c = true := by
  unfold jsTruthy jsTrim
  simp only [Bool.not_not, List.isEmpty_iff, List.reverse_eq_nil_iff,
    List.dropWhile_eq_nil_iff, List.mem_reverse]
  exact dropWhile_all_iff isJsWhiteSpace s.data

theorem trim_truthy_of_not_blank (s : String)
    (h : ¬ ∀ c ∈ s.data, isJsWhiteSpace c = true) : jsTruthy (jsTrim s) = true := by
  by_contra hc
  apply h
  rw [← not_trim_iff]
  simpa using hc

theorem trim_falsy_of_blank (s : String)
    (h : ∀ c ∈ s.data, isJsWhiteSpace c = true) : jsTruthy (jsTrim s) = false := by
  have := (not_trim_iff s).mpr h
  simpa using this

/-! ## handleSpeechEnd run alone -/

theorem call_of_not_blank (env : Env) (s : UserType) (t : String) (st : State)
    (ht : ¬ ∀ c ∈ t.data, isJsWhiteSpace c = true) :
    handleSpeechEnd.call env s t st =
      if s = .clinician then
        translateText.call t (some "English") env.selectedLanguage
          { st with isListening := false, activeUser := none, clinicianText := t }
      else
        translateText.call t env.selectedLanguage (some "English")
          { st with isListening := false, activeUser := none, patientText := t } := by
  simp [handleSpeechEnd.call, trim_truthy_of_not_blank t ht]

theorem call_of_blank (env : Env) (s : UserType) (t : String) (st : State)
    (ht : ∀ c ∈ t.data, isJsWhiteSpace c = true) :
    handleSpeechEnd.call env s t st =
      { st := { st with isListening := false, activeUser := none }, log := [],
        awaiting := none } := by
  simp [handleSpeechEnd.call, trim_falsy_of_blank t ht]

/-- C1: for either speaker `s`, every captured text `t` that is not made of white
space only, and every string `r` that the mocked Translate call returns,
`handleSpeechEnd(s, t)` run from any state (the initial one included) ends with
the speaker's own slot equal to `t` and the other speaker's slot equal to `r`. -/
theorem handleSpeechEnd_success_fills_both_slots (env : Env) (s : UserType)
    (t r : String) (st : State) (ht : ¬ ∀ c ∈ t.data, isJsWhiteSpace c = true) :
    (handleSpeechEnd (fun _ => Outcome.resolved r) env s t st).st.text s = t ∧
    (handleSpeechEnd (fun _ => Outcome.resolved r) env s t st).st.text s.other = r := by
  cases s <;>
    simp [handleSpeechEnd, call_of_not_blank env _ t st ht, translateText.call,
      handleSpeechEnd.settle, translateText.settle, State.text, UserType.other]

/-- The spec example of C1: the clinician says "Hello", Translate returns "Cześć". -/
theorem handleSpeechEnd_success_fills_both_slots_witness :
    (¬ ∀ c ∈ "Hello".data, isJsWhiteSpace c = true) ∧
    (handleSpeechEnd (fun _ => Outcome.resolved "Cześć") sampleEnv .clinician "Hello"
        State.initial).st.text .clinician = "Hello" ∧
    (handleSpeechEnd (fun _ => Outcome.resolved "Cześć") sampleEnv .clinician "Hello"
        State.initial).st.text UserType.clinician.other = "Cześć" :=
  ⟨by decide,
   handleSpeechEnd_success_fills_both_slots sampleEnv .clinician "Hello" "Cześć"
    State.initial (by decide)⟩

/-- C2: for either speaker `s` and every captured text `t` that is not made of
white space only, when `InvokeLLM` rejects, `handleSpeechEnd(s, t)` is fulfilled
(no error reaches its caller), the other speaker's slot holds
"Translation unavailable", `isTranslating` ends false, and `InvokeLLM` was called
exactly once. -/
theorem handleSpeechEnd_failure_stores_fallback (env : Env) (s : UserType)
    (t e : String) (st : State) (ht : ¬ ∀ c ∈ t.data, isJsWhiteSpace c = true) :
    (handleSpeechEnd (fun _ => Outcome.rejected e) env s t st).completion = .ok () ∧
    (handleSpeechEnd (fun _ => Outcome.rejected e) env s t st).st.text s.other
      = "Translation unavailable" ∧
    (handleSpeechEnd (fun _ => Outcome.rejected e) env s t st).st.isTranslating = false ∧
    (handleSpeechEnd (fun _ => Outcome.rejected e) env s t st).log.countP
      Effect.isInvokeLLM = 1 := by
  cases s <;>
    simp [handleSpeechEnd, call_of_not_blank env _ t st ht, translateText.call,
      handleSpeechEnd.settle, translateText.settle, State.text, UserType.other,
      speakText, Effect.isInvokeLLM, List.countP_cons]

/-- The spec example of C2: the patient says "Ból", Translate is rejected. -/
theorem handleSpeechEnd_failure_stores_fallback_witness :
    (¬ ∀ c ∈ "Ból".data, isJsWhiteSpace c = true) ∧
    (handleSpeechEnd (fun _ => Outcome.rejected "network") sampleEnv .patient "Ból"
        State.initial).st.clinicianText = "Translation unavailable" ∧
    (handleSpeechEnd (fun _ => Outcome.rejected "network") sampleEnv .patient "Ból"
        State.initial).st.isTranslating = false :=
  have h := handleSpeechEnd_failure_stores_fallback sampleEnv .patient "Ból" "network"
    State.initial (by decide)
  ⟨by decide, h.2.1, h.2.2.1⟩

/-- C3: for either speaker `s` and every captured text `t` that is empty or made
of white space only, `handleSpeechEnd(s, t)`, whatever `InvokeLLM` would answer,
leaves `clinicianText` and `patientText` as they were, makes no call at all (so no
Translate call, and nothing is awaited), and leaves `activeUser` null and
`isListening` false; `isTranslating` is as before, so the state is Idle when no
translation was in progress. -/
theorem handleSpeechEnd_blank_aborts (InvokeLLM : String → Outcome String) (env : Env)
    (s : UserType) (t : String) (st : State)
    (ht : ∀ c ∈ t.data, isJsWhiteSpace c = true) :
    (handleSpeechEnd InvokeLLM env s t st).st.clinicianText = st.clinicianText ∧
    (handleSpeechEnd InvokeLLM env s t st).st.patientText = st.patientText ∧
    (handleSpeechEnd InvokeLLM env s t st).log = [] ∧
    (handleSpeechEnd.call env s t st).awaiting = none ∧
    (handleSpeechEnd InvokeLLM env s t st).st.activeUser = none ∧
    (handleSpeechEnd InvokeLLM env s t st).st.isListening = false ∧
    (handleSpeechEnd InvokeLLM env s t st).st.isTranslating = st.isTranslating := by
  simp [handleSpeechEnd, call_of_blank env s t st ht]

/-- The spec example of C3: three spaces captured while the patient listens. -/
theorem handleSpeechEnd_blank_aborts_witness :
    (∀ c ∈ "   ".data, isJsWhiteSpace c = true) ∧
    (handleSpeechEnd (fun _ => Outcome.resolved "x") sampleEnv .patient "   "
        (handleSpeechStart .patient State.initial)).st
      = State.initial ∧
    (handleSpeechEnd (fun _ => Outcome.resolved "x") sampleEnv .patient "   "
        (handleSpeechStart .patient State.initial)).log = [] :=
  ⟨by decide, by decide,
   (handleSpeechEnd_blank_aborts (fun _ => Outcome.resolved "x") sampleEnv .patient "   "
      (handleSpeechStart .patient State.initial) (by decide)).2.2.1⟩

/-! ## The page as a reactive system: invariants -/

theorem settle_keeps_turn_cells (env : Env) (u : UserType) (o : Outcome String)
    (st : State) :
    (handleSpeechEnd.settle env u o st).st.isListening = st.isListening ∧
    (handleSpeechEnd.settle env u o st).st.activeUser = st.activeUser := by
  cases u <;> cases o <;> simp [handleSpeechEnd.settle, translateText.settle]

theorem call_resets_turn_cells (env : Env) (u : UserType) (t : String) (st : State) :
    (handleSpeechEnd.call env u t st).st.isListening = false ∧
    (handleSpeechEnd.call env u t st).st.activeUser = none := by
  unfold handleSpeechEnd.call
  by_cases hb : jsTruthy (jsTrim t) = true <;> cases u <;>
    simp [hb, translateText.call]

theorem setPressTime_st (w : World) (side : UserType) (v : Option Nat) :
    (w.setPressTime side v).st = w.st := by
  cases side <;> rfl

theorem handleMouseUp_st (side : UserType) (now : Nat) (w : World) :
    (handleMouseUp side now w).st = w.st := by
  unfold handleMouseUp
  split
  · rfl
  · split
    · simp only []
      split
      · exact setPressTime_st _ _ _
      · rfl
    · rfl

theorem step_keeps_listeningIffActive (env : Env) (w : World) (e : Event)
    (h : ListeningIffActive w.st) : ListeningIffActive (step env w e).st := by
  cases e with
  | sessionSettled o =>
    simp only [step]
    split
    · cases o <;> simpa [loadSession.settle, ListeningIffActive] using h
    · exact h
  | mouseDown side now =>
    simp only [step]
    split
    · unfold handleMouseDown
      split
      · exact h
      · simp [ListeningIffActive, setPressTime_st, handleSpeechStart]
    · exact h
  | mouseUp side now =>
    simp only [step]
    split
    · rw [handleMouseUp_st]; exact h
    · exact h
  | timeout =>
    simp only [step]
    split
    · exact h
    · simp only [timerCallback, setPressTime_st, ListeningIffActive]
      simp [call_resets_turn_cells]
  | llmSettled i o =>
    simp only [step]
    split
    · exact h
    · simp only [ListeningIffActive]
      rw [(settle_keeps_turn_cells _ _ _ _).1, (settle_keeps_turn_cells _ _ _ _).2]
      exact h

theorem mount_listeningIffActive (env : Env) : ListeningIffActive (mount env).st := by
  unfold mount mountEffect
  cases env.sessionId with
  | none => simp [ListeningIffActive, State.initial]
  | some sid =>
    by_cases hs : jsTruthy sid = true <;> simp [ListeningIffActive, State.initial, hs]

theorem foldl_keeps_listeningIffActive (env : Env) (events : List Event) (w : World)
    (h : ListeningIffActive w.st) :
    ListeningIffActive (events.foldl (step env) w).st := by
  induction events generalizing w with
  | nil => exact h
  | cons e es ih => exact ih _ (step_keeps_listeningIffActive env w e h)

theorem run_listeningIffActive (env : Env) (events : List Event) :
    ListeningIffActive (run env events).st :=
  foldl_keeps_listeningIffActive env events _ (mount_listeningIffActive env)

theorem settle_keeps_session (env : Env) (u : UserType) (o : Outcome String)
    (st : State) : (handleSpeechEnd.settle env u o st).st.session = st.session := by
  cases u <;> cases o <;> simp [handleSpeechEnd.settle, translateText.settle]

theorem call_keeps_session (env : Env) (u : UserType) (t : String) (st : State) :
    (handleSpeechEnd.call env u t st).st.session = st.session := by
  unfold handleSpeechEnd.call
  by_cases hb : jsTruthy (jsTrim t) = true <;> cases u <;>
    simp [hb, translateText.call]

theorem settle_isTranslating (env : Env) (u : UserType) (o : Outcome String)
    (st : State) : (handleSpeechEnd.settle env u o st).st.isTranslating = false := by
  cases u <;> cases o <;> simp [handleSpeechEnd.settle, translateText.settle]

theorem setPressTime_timers (w : World) (side : UserType) (v : Option Nat) :
    (w.setPressTime side v).timers = w.timers := by
  cases side <;> rfl

theorem handleMouseUp_timers (side : UserType) (now : Nat) (w : World) :
    (handleMouseUp side now w).timers = w.timers := by
  unfold handleMouseUp
  split
  · rfl
  · split
    · simp only []
      split
      · exact setPressTime_timers _ _ _
      · rfl
    · rfl

theorem step_keeps_buttonsShown (env : Env) (w : World) (e : Event)
    (h : ButtonsShownWhenBusy w) : ButtonsShownWhenBusy (step env w e) := by
  unfold ButtonsShownWhenBusy at h ⊢
  cases e with
  | sessionSettled o =>
    simp only [step]
    split
    · cases o <;> simp [loadSession.settle]
      exact h
    · exact h
  | mouseDown side now =>
    simp only [step]
    split
    · rename_i hs
      unfold handleMouseDown
      split
      · exact h
      · intro _
        simpa [setPressTime_st, handleSpeechStart] using hs
    · exact h
  | mouseUp side now =>
    simp only [step]
    split
    · rw [handleMouseUp_st, handleMouseUp_timers]; exact h
    · exact h
  | timeout =>
    simp only [step]
    split
    · exact h
    · rename_i u rest hw
      intro _
      simp only [timerCallback, setPressTime_st, call_keeps_session]
      exact h (Or.inr (Or.inr (by simp [hw])))
  | llmSettled i o =>
    simp only [step]
    split
    · exact h
    · simp only [settle_keeps_session, settle_isTranslating,
        (settle_keeps_turn_cells _ _ _ _).1]
      intro hb
      apply h
      rcases hb with hb | hb | hb
      · exact Or.inl hb
      · simp at hb
      · exact Or.inr (Or.inr hb)

theorem mount_buttonsShown (env : Env) : ButtonsShownWhenBusy (mount env) := by
  unfold mount mountEffect ButtonsShownWhenBusy
  cases env.sessionId with
  | none => simp [State.initial]
  | some sid => by_cases hs : jsTruthy sid = true <;> simp [State.initial, hs]

theorem foldl_keeps_buttonsShown (env : Env) (events : List Event) (w : World)
    (h : ButtonsShownWhenBusy w) : ButtonsShownWhenBusy (events.foldl (step env) w) := by
  induction events generalizing w with
  | nil => exact h
  | cons e es ih => exact ih _ (step_keeps_buttonsShown env w e h)

theorem run_buttonsShown (env : Env) (events : List Event) :
    ButtonsShownWhenBusy (run env events) :=
  foldl_keeps_buttonsShown env events _ (mount_buttonsShown env)

theorem mouseDown_refused (env : Env) (w : World) (side : UserType) (now : Nat)
    (hl : w.st.isListening = true) (ha : w.st.activeUser ≠ some side) :
    step env w (.mouseDown side now) = w := by
  simp only [step]
  split
  · simp [handleMouseDown, disabledProp, hl, ha]
  · rfl

theorem mouseDown_accepted (env : Env) (w : World) (side : UserType) (now : Nat)
    (hs : w.st.session.isSome = true)
    (hd : w.st.isListening = false ∨ w.st.activeUser = some side) :
    (step env w (.mouseDown side now)).st = handleSpeechStart side w.st ∧
    (step env w (.mouseDown side now)).timers = w.timers ++ [side] ∧
    (step env w (.mouseDown side now)).calls = w.calls := by
  have hdis : disabledProp side w.st = false := by
    rcases hd with hd | hd <;> simp [disabledProp, hd]
  simp only [step, hs, if_true, handleMouseDown, hdis]
  cases side <;> simp [World.setPressTime]

/-! ## The page as a reactive system: claims -/

/-- C4: the claim that `activeUser` is non-null whenever a translation is in
progress fails on the code.  After the session has loaded, the clinician has
pressed and the timer has fired, `handleSpeechEnd` is waiting for Translate:
`isTranslating` is true, yet `activeUser` is already null (it is reset before
`translateText` is called), so "non-null iff listening or translating" is false in
this reachable state, and the `isTranslating && activeUser === 'clinician'` prop
of the patient's display is false during the clinician's translation. -/
theorem activeUser_null_while_translating :
    (run sampleEnv [.sessionSettled (.resolved sampleSession),
        .mouseDown .clinician 1700000000000, .timeout]).st.isTranslating = true ∧
    (run sampleEnv [.sessionSettled (.resolved sampleSession),
        .mouseDown .clinician 1700000000000, .timeout]).st.activeUser = none ∧
    (run sampleEnv [.sessionSettled (.resolved sampleSession),
        .mouseDown .clinician 1700000000000, .timeout]).calls = [.clinician] ∧
    ¬ ((run sampleEnv [.sessionSettled (.resolved sampleSession),
          .mouseDown .clinician 1700000000000, .timeout]).st.activeUser ≠ none ↔
        ((run sampleEnv [.sessionSettled (.resolved sampleSession),
          .mouseDown .clinician 1700000000000, .timeout]).st.isListening = true ∨
         (run sampleEnv [.sessionSettled (.resolved sampleSession),
          .mouseDown .clinician 1700000000000, .timeout]).st.isTranslating = true)) := by
  decide

/-- C5, as stated, fails: while the clinician is listening, a second press on the
clinician's own button is accepted (two timers are then pending), and while the
clinician's translation is in progress a press on the patient's button is
accepted (a capture begins while `isTranslating` is true). -/
theorem capture_begins_outside_idle :
    ((run sampleEnv [.sessionSettled (.resolved sampleSession),
        .mouseDown .clinician 1700000000000]).st.isListening = true ∧
      disabledProp .clinician (run sampleEnv [.sessionSettled (.resolved sampleSession),
        .mouseDown .clinician 1700000000000]).st = false ∧
      (run sampleEnv [.sessionSettled (.resolved sampleSession),
        .mouseDown .clinician 1700000000000,
        .mouseDown .clinician 1700000000900]).timers = [.clinician, .clinician]) ∧
    ((run sampleEnv [.sessionSettled (.resolved sampleSession),
        .mouseDown .clinician 1700000000000, .timeout]).st.isTranslating = true ∧
      disabledProp .patient (run sampleEnv [.sessionSettled (.resolved sampleSession),
        .mouseDown .clinician 1700000000000, .timeout]).st = false ∧
      (run sampleEnv [.sessionSettled (.resolved sampleSession),
        .mouseDown .clinician 1700000000000, .timeout,
        .mouseDown .patient 1700000002500]).timers = [.patient] ∧
      (run sampleEnv [.sessionSettled (.resolved sampleSession),
        .mouseDown .clinician 1700000000000, .timeout,
        .mouseDown .patient 1700000002500]).calls = [.clinician] ∧
      (run sampleEnv [.sessionSettled (.resolved sampleSession),
        .mouseDown .clinician 1700000000000, .timeout,
        .mouseDown .patient 1700000002500]).st.isListening = true) := by
  decide

/-- C5, amended: in every reachable state where `isListening` is true,
`activeUser` names a side, and a press on the other side's `SpeechButton` is not
accepted (the page is unchanged: no handler runs, no timer is set), while a press
on the active side's own button is accepted; in every reachable state where
`isTranslating` is true and `isListening` is false, a press on either side's
button is accepted (`handleSpeechStart` runs and one more timer is set). -/
theorem press_refused_only_for_other_side_while_listening (env : Env)
    (events : List Event) (now : Nat) :
    ((run env events).st.isListening = true →
      ∃ a, (run env events).st.activeUser = some a ∧
        step env (run env events) (.mouseDown a.other now) = run env events ∧
        (step env (run env events) (.mouseDown a now)).timers
          = (run env events).timers ++ [a]) ∧
    ((run env events).st.isTranslating = true →
      (run env events).st.isListening = false →
      ∀ side, (step env (run env events) (.mouseDown side now)).st
          = handleSpeechStart side (run env events).st ∧
        (step env (run env events) (.mouseDown side now)).timers
          = (run env events).timers ++ [side]) := by
  have hinv := run_listeningIffActive env events
  have hshown := run_buttonsShown env events
  constructor
  · intro hl
    have hne : (run env events).st.activeUser ≠ none := hinv.mp hl
    obtain ⟨a, ha⟩ := Option.ne_none_iff_exists'.mp hne
    refine ⟨a, ha, ?_, ?_⟩
    · apply mouseDown_refused env _ _ _ hl
      rw [ha]
      cases a <;> simp [UserType.other]
    · exact (mouseDown_accepted env _ a now (hshown (Or.inl hl)) (Or.inr ha)).2.1
  · intro ht hl side
    have h := mouseDown_accepted env _ side now (hshown (Or.inr (Or.inl ht))) (Or.inl hl)
    exact ⟨h.1, h.2.1⟩

/-- An instance of the amended C5: the patient listens, the clinician presses. -/
theorem press_refused_only_for_other_side_while_listening_witness :
    (run sampleEnv [.sessionSettled (.resolved sampleSession),
        .mouseDown .patient 1700000000000]).st.isListening = true ∧
    ∃ a, (run sampleEnv [.sessionSettled (.resolved sampleSession),
        .mouseDown .patient 1700000000000]).st.activeUser = some a ∧
      step sampleEnv (run sampleEnv [.sessionSettled (.resolved sampleSession),
        .mouseDown .patient 1700000000000]) (.mouseDown a.other 1700000000100)
        = run sampleEnv [.sessionSettled (.resolved sampleSession),
        .mouseDown .patient 1700000000000] ∧
      (step sampleEnv (run sampleEnv [.sessionSettled (.resolved sampleSession),
        .mouseDown .patient 1700000000000]) (.mouseDown a 1700000000100)).timers
        = (run sampleEnv [.sessionSettled (.resolved sampleSession),
        .mouseDown .patient 1700000000000]).timers ++ [a] :=
  ⟨by decide,
   (press_refused_only_for_other_side_while_listening sampleEnv
      [.sessionSettled (.resolved sampleSession), .mouseDown .patient 1700000000000]
      1700000000100).1 (by decide)⟩

/-- C6, as stated, fails: in a state with `activeUser = 'clinician'` (and
`isListening` true), a press for the clinician is not a no-op: a new capture is
started, one more `onSpeechEnd` is scheduled. -/
theorem same_side_press_schedules_another_capture :
    ({ st := { session := some sampleSession, isListening := true,
               activeUser := some .clinician },
       timers := [.clinician] } : World).st.activeUser ≠ none ∧
    (step sampleEnv
      { st := { session := some sampleSession, isListening := true,
                activeUser := some .clinician },
        timers := [.clinician] }
      (.mouseDown .clinician 1700000000900)).timers = [.clinician, .clinician] ∧
    (step sampleEnv
      { st := { session := some sampleSession, isListening := true,
                activeUser := some .clinician },
        timers := [.clinician] }
      (.mouseDown .clinician 1700000000900)).log
      = [Effect.setTimeout .clinician 2000] := by
  decide

/-- C6, amended: for every state with `isListening` true and `activeUser = a`,
a press for the other speaker (any `s ≠ a`) is a no-op: the state of the page, the
pending timers and the calls made are all unchanged; a press for `a` itself, when
the buttons are shown, leaves `activeUser`, `isListening`, `isTranslating` and
both text slots unchanged but schedules one more `onSpeechEnd`. -/
theorem press_is_noop_for_other_side (env : Env) (w : World) (a : UserType)
    (now : Nat) (hl : w.st.isListening = true) (ha : w.st.activeUser = some a) :
    (∀ s, s ≠ a → step env w (.mouseDown s now) = w) ∧
    (w.st.session.isSome = true →
      (step env w (.mouseDown a now)).st = w.st ∧
      (step env w (.mouseDown a now)).timers = w.timers ++ [a] ∧
      (step env w (.mouseDown a now)).log = w.log ++ [Effect.setTimeout a 2000]) := by
  constructor
  · intro s hs
    apply mouseDown_refused env w s now hl
    rw [ha]
    intro h
    exact hs (Option.some.inj h).symm
  · intro hshown
    have h := mouseDown_accepted env w a now hshown (Or.inr ha)
    refine ⟨?_, h.2.1, ?_⟩
    · rw [h.1]
      cases hw : w.st
      simp [handleSpeechStart, hw] at hl ha ⊢
      simp [hl, ha]
    · have hdis : disabledProp a w.st = false := by simp [disabledProp, ha]
      simp only [step, hshown, if_true, handleMouseDown, hdis]
      cases a <;> simp [World.setPressTime]

/-- An instance of the amended C6: the clinician listens, the patient presses. -/
theorem press_is_noop_for_other_side_witness :
    step sampleEnv
      { st := { session := some sampleSession, isListening := true,
                activeUser := some .clinician },
        timers := [.clinician] }
      (.mouseDown .patient 1700000000900)
    = { st := { session := some sampleSession, isListening := true,
                activeUser := some .clinician },
        timers := [.clinician] } :=
  (press_is_noop_for_other_side sampleEnv
    { st := { session := some sampleSession, isListening := true,
              activeUser := some .clinician },
      timers := [.clinician] }
    .clinician 1700000000900 rfl rfl).1 .patient (by decide)

/-- C7: after every sequence of events (presses, releases, timers firing,
translations and the session load settling), the `isListening` props passed to
the two `SpeechButton`s are not both true, and whenever one side is the active
speaker, or its `isListening` prop is true, the other side's button is disabled. -/
theorem one_listener_and_other_side_disabled (env : Env) (events : List Event) :
    ¬ (isListeningProp .clinician (run env events).st = true ∧
       isListeningProp .patient (run env events).st = true) ∧
    ∀ side, ((run env events).st.activeUser = some side ∨
        isListeningProp side (run env events).st = true) →
      disabledProp side.other (run env events).st = true := by
  have hinv := run_listeningIffActive env events
  constructor
  · intro ⟨h1, h2⟩
    simp only [isListeningProp, Bool.and_eq_true, decide_eq_true_eq] at h1 h2
    rw [h1.2] at h2
    exact absurd h2.2 (by decide)
  · intro side h
    have ha : (run env events).st.activeUser = some side := by
      rcases h with h | h
      · exact h
      · simp only [isListeningProp, Bool.and_eq_true, decide_eq_true_eq] at h
        exact h.2
    have hl : (run env events).st.isListening = true := hinv.mpr (by rw [ha]; simp)
    simp only [disabledProp, hl, ha, Bool.true_and, decide_eq_true_eq]
    cases side <;> simp [UserType.other]

/-- An instance of C7: the patient listens, the clinician button is disabled. -/
theorem one_listener_and_other_side_disabled_witness :
    (run sampleEnv [.sessionSettled (.resolved sampleSession),
        .mouseDown .patient 1700000000000]).st.activeUser = some .patient ∧
    disabledProp .clinician (run sampleEnv [.sessionSettled (.resolved sampleSession),
        .mouseDown .patient 1700000000000]).st = true :=
  ⟨by decide,
   (one_listener_and_other_side_disabled sampleEnv
      [.sessionSettled (.resolved sampleSession), .mouseDown .patient 1700000000000]).2
      .patient (Or.inl (by decide))⟩

/-! ## Calls made by the handlers -/

theorem translatePrompt_from_english (t : String) (toLang : Option String) :
    translatePrompt t (some "English") toLang =
      "Translate the following English text to " ++ toLang.getD "null" ++
        ". Only return the translation, nothing else: \"" ++ t ++ "\"" := by
  have h : "Translate the following " ++ "English" ++ " text to "
      = "Translate the following English text to " := by decide
  cases toLang <;> simp [translatePrompt, jsStr, h]

theorem translatePrompt_to_english (t : String) (fromLang : Option String) :
    translatePrompt t fromLang (some "English") =
      "Translate the following " ++ fromLang.getD "null" ++
        " text to English. Only return the translation, nothing else: \"" ++ t ++ "\"" := by
  have h : " text to " ++ ("English" ++ ". Only return the translation, nothing else: \"")
      = " text to English. Only return the translation, nothing else: \"" := by decide
  cases fromLang <;>
    simp only [translatePrompt, jsStr, Option.getD, String.append_assoc] <;>
    rw [← String.append_assoc "English", ← String.append_assoc " text to ", h]

theorem speakText_literal (text : String) (language : Option String) :
    speakText text language =
      [Effect.consoleLog ("Speaking in " ++ language.getD "null" ++ ": " ++ text)] := by
  cases language <;> simp [speakText, jsStr]

theorem speakText_english (text : String) :
    speakText text (some "English") = [Effect.consoleLog ("Speaking in English: " ++ text)] := by
  have h : "Speaking in " ++ "English" ++ ": " = "Speaking in English: " := by decide
  simp [speakText, jsStr, h]

theorem handleSpeechEnd_log (InvokeLLM : String → Outcome String) (env : Env)
    (s : UserType) (t : String) (st : State)
    (ht : ¬ ∀ c ∈ t.data, isJsWhiteSpace c = true) (fromLang toLang : Option String)
    (hlang : (fromLang, toLang) =
      if s = .clinician then (some "English", env.selectedLanguage)
      else (env.selectedLanguage, some "English")) :
    (handleSpeechEnd InvokeLLM env s t st).log =
      Effect.invokeLLM (translatePrompt t fromLang toLang) ::
        (match InvokeLLM (translatePrompt t fromLang toLang) with
          | .resolved response => speakText response toLang
          | .rejected error =>
            Effect.consoleError "Translation error:" error ::
              speakText "Translation unavailable" toLang) ∧
    (handleSpeechEnd InvokeLLM env s t st).st.text s.other =
      (match InvokeLLM (translatePrompt t fromLang toLang) with
        | .resolved response => response
        | .rejected _ => "Translation unavailable") := by
  cases s
  · simp only [if_true, Prod.mk.injEq] at hlang
    obtain ⟨rfl, rfl⟩ := hlang
    cases h : InvokeLLM (translatePrompt t (some "English") env.selectedLanguage) <;>
      simp [handleSpeechEnd, call_of_not_blank env _ t st ht, translateText.call,
        handleSpeechEnd.settle, translateText.settle, h, State.text, UserType.other]
  · simp only [reduceCtorEq, if_false, Prod.mk.injEq] at hlang
    obtain ⟨rfl, rfl⟩ := hlang
    cases h : InvokeLLM (translatePrompt t env.selectedLanguage (some "English")) <;>
      simp [handleSpeechEnd, call_of_not_blank env _ t st ht, translateText.call,
        handleSpeechEnd.settle, translateText.settle, h, State.text, UserType.other]

/-- C8: for every captured text `t` that is not made of white space only and every
session language `L` (a null language reads "null"), `handleSpeechEnd` calls
`InvokeLLM` exactly once and first of all, for the clinician on the prompt
"Translate the following English text to L. Only return the translation, nothing
else: "t"", for the patient on "Translate the following L text to English. Only
return the translation, nothing else: "t""; the last call it makes is the playback
`console.log` of the stored translation, "Speaking in L: ..." for the clinician and
"Speaking in English: ..." for the patient; between the two there is only the
`console.error` of a failed translation. -/
theorem handleSpeechEnd_translates_once_then_speaks (InvokeLLM : String → Outcome String)
    (env : Env) (t : String) (st : State)
    (ht : ¬ ∀ c ∈ t.data, isJsWhiteSpace c = true) :
    ((handleSpeechEnd InvokeLLM env .clinician t st).log.filter Effect.isInvokeLLM
        = [Effect.invokeLLM
            ("Translate the following English text to " ++
              env.selectedLanguage.getD "null" ++
              ". Only return the translation, nothing else: \"" ++ t ++ "\"")] ∧
      (handleSpeechEnd InvokeLLM env .clinician t st).log.head?
        = some (Effect.invokeLLM
            ("Translate the following English text to " ++
              env.selectedLanguage.getD "null" ++
              ". Only return the translation, nothing else: \"" ++ t ++ "\"")) ∧
      (handleSpeechEnd InvokeLLM env .clinician t st).log.getLast?
        = some (Effect.consoleLog
            ("Speaking in " ++ env.selectedLanguage.getD "null" ++ ": " ++
              (handleSpeechEnd InvokeLLM env .clinician t st).st.patientText)) ∧
      (∀ response,
        InvokeLLM ("Translate the following English text to " ++
              env.selectedLanguage.getD "null" ++
              ". Only return the translation, nothing else: \"" ++ t ++ "\"")
          = .resolved response →
        (handleSpeechEnd InvokeLLM env .clinician t st).log
          = [Effect.invokeLLM
              ("Translate the following English text to " ++
                env.selectedLanguage.getD "null" ++
                ". Only return the translation, nothing else: \"" ++ t ++ "\""),
             Effect.consoleLog
              ("Speaking in " ++ env.selectedLanguage.getD "null" ++ ": " ++ response)])) ∧
    ((handleSpeechEnd InvokeLLM env .patient t st).log.filter Effect.isInvokeLLM
        = [Effect.invokeLLM
            ("Translate the following " ++ env.selectedLanguage.getD "null" ++
              " text to English. Only return the translation, nothing else: \"" ++
              t ++ "\"")] ∧
      (handleSpeechEnd InvokeLLM env .patient t st).log.head?
        = some (Effect.invokeLLM
            ("Translate the following " ++ env.selectedLanguage.getD "null" ++
              " text to English. Only return the translation, nothing else: \"" ++
              t ++ "\"")) ∧
      (handleSpeechEnd InvokeLLM env .patient t st).log.getLast?
        = some (Effect.consoleLog
            ("Speaking in English: " ++
              (handleSpeechEnd InvokeLLM env .patient t st).st.clinicianText)) ∧
      (∀ response,
        InvokeLLM ("Translate the following " ++ env.selectedLanguage.getD "null" ++
              " text to English. Only return the translation, nothing else: \"" ++
              t ++ "\"")
          = .resolved response →
        (handleSpeechEnd InvokeLLM env .patient t st).log
          = [Effect.invokeLLM
              ("Translate the following " ++ env.selectedLanguage.getD "null" ++
                " text to English. Only return the translation, nothing else: \"" ++
                t ++ "\""),
             Effect.consoleLog ("Speaking in English: " ++ response)])) := by
  constructor
  · have h := handleSpeechEnd_log InvokeLLM env .clinician t st ht (some "English")
      env.selectedLanguage (by simp)
    rw [translatePrompt_from_english, speakText_literal] at h
    simp only [speakText_literal] at h
    have hslot : (handleSpeechEnd InvokeLLM env .clinician t st).st.patientText
        = (handleSpeechEnd InvokeLLM env .clinician t st).st.text UserType.clinician.other := rfl
    rw [hslot, h.1, h.2]
    refine ⟨?_, rfl, ?_, ?_⟩
    · cases InvokeLLM _ <;> simp [Effect.isInvokeLLM, List.filter_cons]
    · cases InvokeLLM _ <;> simp
    · intro response hr
      rw [hr]
  · have h := handleSpeechEnd_log InvokeLLM env .patient t st ht env.selectedLanguage
      (some "English") (by simp)
    rw [translatePrompt_to_english] at h
    simp only [speakText_english] at h
    have hslot : (handleSpeechEnd InvokeLLM env .patient t st).st.clinicianText
        = (handleSpeechEnd InvokeLLM env .patient t st).st.text UserType.patient.other := rfl
    rw [hslot, h.1, h.2]
    refine ⟨?_, rfl, ?_, ?_⟩
    · cases InvokeLLM _ <;> simp [Effect.isInvokeLLM, List.filter_cons]
    · cases InvokeLLM _
      · simp
      · simp
        decide
    · intro response hr
      rw [hr]

/-- An instance of C8: the clinician says "Hello" in a Polish session and
Translate answers "Cześć". -/
theorem handleSpeechEnd_translates_once_then_speaks_witness :
    (¬ ∀ c ∈ "Hello".data, isJsWhiteSpace c = true) ∧
    (handleSpeechEnd (fun _ => Outcome.resolved "Cześć") sampleEnv .clinician "Hello"
        State.initial).log
      = [Effect.invokeLLM
          "Translate the following English text to Polish. Only return the translation, nothing else: \"Hello\"",
         Effect.consoleLog "Speaking in Polish: Cześć"] :=
  ⟨by decide,
   (handleSpeechEnd_translates_once_then_speaks (fun _ => Outcome.resolved "Cześć")
      sampleEnv "Hello" State.initial (by decide)).1.2.2.2 "Cześć" rfl⟩

/-- C9, as stated, fails: the clinician's turn begins from Idle with a non-blank
text; while its translation is in progress the patient presses (the button is
not disabled); when the clinician's translation completes, nothing is in flight
for it any more and `isTranslating` is false, yet `isListening` is true and
`activeUser` is the patient: the turn has not ended in Idle. -/
theorem turn_ends_outside_idle_after_press :
    (run sampleEnv [.sessionSettled (.resolved sampleSession)]).st.isListening = false ∧
    (run sampleEnv [.sessionSettled (.resolved sampleSession)]).st.isTranslating = false ∧
    (run sampleEnv [.sessionSettled (.resolved sampleSession)]).st.activeUser = none ∧
    (run sampleEnv [.sessionSettled (.resolved sampleSession),
      .mouseDown .clinician 1700000000000, .timeout]).calls = [.clinician] ∧
    disabledProp .patient (run sampleEnv [.sessionSettled (.resolved sampleSession),
      .mouseDown .clinician 1700000000000, .timeout]).st = false ∧
    (run sampleEnv [.sessionSettled (.resolved sampleSession),
      .mouseDown .clinician 1700000000000, .timeout, .mouseDown .patient 1700000002500,
      .llmSettled 0 (.resolved "Cześć")]).calls = [] ∧
    (run sampleEnv [.sessionSettled (.resolved sampleSession),
      .mouseDown .clinician 1700000000000, .timeout, .mouseDown .patient 1700000002500,
      .llmSettled 0 (.resolved "Cześć")]).st.isTranslating = false ∧
    (run sampleEnv [.sessionSettled (.resolved sampleSession),
      .mouseDown .clinician 1700000000000, .timeout, .mouseDown .patient 1700000002500,
      .llmSettled 0 (.resolved "Cześć")]).st.isListening = true ∧
    (run sampleEnv [.sessionSettled (.resolved sampleSession),
      .mouseDown .clinician 1700000000000, .timeout, .mouseDown .patient 1700000002500,
      .llmSettled 0 (.resolved "Cześć")]).st.activeUser = some .patient := by
  decide

/-- C9, amended: for either speaker `s` and every captured text `t` that is not
made of white space only, a turn begun by `handleSpeechStart(s)` (from Idle or
from any state) is, when `handleSpeechEnd(s, t)` waits for Translate, in a state
with `isListening` false, `isTranslating` true, `activeUser` null and `t` in the
speaker's slot.  When Translate settles, with a translation or with an error, in
whatever state `st'` the page then is, the completion sets `isTranslating` to
false, leaves `isListening` and `activeUser` as they are in `st'`, and raises no
error.  So the turn ends in Idle exactly when no capture is in progress at that
moment; in particular it does when nothing happened since the call. -/
theorem turn_translates_then_completes (env : Env) (s : UserType) (t : String)
    (o : Outcome String) (st st' : State)
    (ht : ¬ ∀ c ∈ t.data, isJsWhiteSpace c = true) :
    ((handleSpeechEnd.call env s t (handleSpeechStart s st)).awaiting.isSome = true ∧
      (handleSpeechEnd.call env s t (handleSpeechStart s st)).st.isListening = false ∧
      (handleSpeechEnd.call env s t (handleSpeechStart s st)).st.isTranslating = true ∧
      (handleSpeechEnd.call env s t (handleSpeechStart s st)).st.activeUser = none ∧
      (handleSpeechEnd.call env s t (handleSpeechStart s st)).st.text s = t) ∧
    ((handleSpeechEnd.settle env s o st').st.isTranslating = false ∧
      (handleSpeechEnd.settle env s o st').st.isListening = st'.isListening ∧
      (handleSpeechEnd.settle env s o st').st.activeUser = st'.activeUser ∧
      (handleSpeechEnd.settle env s o st').completion = .ok ()) ∧
    ((handleSpeechEnd.settle env s o
        (handleSpeechEnd.call env s t (handleSpeechStart s st)).st).st.isTranslating = false ∧
      (handleSpeechEnd.settle env s o
        (handleSpeechEnd.call env s t (handleSpeechStart s st)).st).st.isListening = false ∧
      (handleSpeechEnd.settle env s o
        (handleSpeechEnd.call env s t (handleSpeechStart s st)).st).st.activeUser = none ∧
      (handleSpeechEnd.settle env s o
        (handleSpeechEnd.call env s t (handleSpeechStart s st)).st).completion = .ok ()) := by
  refine ⟨?_, ?_, ?_⟩
  · cases s <;>
      simp [call_of_not_blank env _ t _ ht, translateText.call, State.text,
        handleSpeechStart]
  · cases s <;> cases o <;> simp [handleSpeechEnd.settle, translateText.settle]
  · cases s <;> cases o <;>
      simp [call_of_not_blank env _ t _ ht, translateText.call, handleSpeechEnd.settle,
        translateText.settle, handleSpeechStart]

/-- An instance of the amended C9: the patient says "Ból", Translate is rejected,
nothing happens in between. -/
theorem turn_translates_then_completes_witness :
    (¬ ∀ c ∈ "Ból".data, isJsWhiteSpace c = true) ∧
    (handleSpeechEnd.call sampleEnv .patient "Ból"
        (handleSpeechStart .patient State.initial)).st.isTranslating = true ∧
    (handleSpeechEnd.settle sampleEnv .patient (Outcome.rejected "network")
        (handleSpeechEnd.call sampleEnv .patient "Ból"
          (handleSpeechStart .patient State.initial)).st).st.activeUser = none :=
  have h := turn_translates_then_completes sampleEnv .patient "Ból"
    (Outcome.rejected "network") State.initial State.initial (by decide)
  ⟨by decide, h.1.2.2.1, h.2.2.2.2.1⟩

/-- C10: however the `Session.update` promise settles, `handleEndSession` leaves
`sessionActive` false and is fulfilled (no error); it never issues more than one
update request, and with a session id present (a non-empty `sessionId` parameter)
it issues exactly one, for that id, carrying `session_status = "ended"` and the
current time as `end_time`. -/
theorem handleEndSession_always_ends_locally (update : Outcome Session) (now : String)
    (env : Env) (st : State) :
    (handleEndSession update now env st).st.sessionActive = false ∧
    (handleEndSession update now env st).completion = .ok () ∧
    (handleEndSession update now env st).log.countP Effect.isSessionUpdate ≤ 1 ∧
    ∀ id, env.sessionId = some id → jsTruthy id = true →
      (handleEndSession update now env st).log.filter Effect.isSessionUpdate
        = [Effect.sessionUpdate id "ended" now] := by
  refine ⟨rfl, rfl, ?_, ?_⟩
  · unfold handleEndSession
    cases env.sessionId with
    | none => simp [Effect.isSessionUpdate, List.countP_cons]
    | some sid =>
      by_cases hid : jsTruthy sid = true <;> cases update <;>
        simp [Effect.isSessionUpdate, List.countP_cons, hid]
  · intro id hid htr
    unfold handleEndSession
    cases update <;>
      simp [hid, htr, Effect.isSessionUpdate, List.filter_cons]

/-- An instance of C10: the update for session "s1" is rejected. -/
theorem handleEndSession_always_ends_locally_witness :
    (handleEndSession (Outcome.rejected "offline") "2024-01-01T00:30:00.000Z" sampleEnv
        State.initial).st.sessionActive = false ∧
    (handleEndSession (Outcome.rejected "offline") "2024-01-01T00:30:00.000Z" sampleEnv
        State.initial).log.filter Effect.isSessionUpdate
      = [Effect.sessionUpdate "s1" "ended" "2024-01-01T00:30:00.000Z"] :=
  have h := handleEndSession_always_ends_locally (Outcome.rejected "offline")
    "2024-01-01T00:30:00.000Z" sampleEnv State.initial
  ⟨h.1, h.2.2.2 "s1" rfl (by decide)⟩

/-! ## The phrase filter -/

theorem objSet_of_new_key (acc : List (String × List String)) (key : String)
    (value : List String) (h : ∀ e ∈ acc, e.1 ≠ key) :
    objSet acc key value = acc ++ [(key, value)] := by
  unfold objSet
  have hany : acc.any (fun e => e.1 == key) = false := by
    rw [List.any_eq_false]
    intro e he
    simpa using h e he
  simp [hany]

theorem foldl_filterReducer (toLowerCase : String → String) (q : String)
    (categories acc : List (String × List String))
    (hnodup : (categories.map Prod.fst).Nodup)
    (hnew : ∀ e ∈ acc, ∀ e' ∈ categories, e.1 ≠ e'.1) :
    categories.foldl (filterReducer toLowerCase q) acc =
      acc ++ (categories.map fun e =>
          (e.1, e.2.filter fun phrase =>
            jsIncludes (toLowerCase phrase) (toLowerCase q) ||
            jsIncludes (toLowerCase e.1) (toLowerCase q))).filter
        fun e => !e.2.isEmpty := by
  induction categories generalizing acc with
  | nil => simp
  | cons e rest ih =>
    rw [List.map_cons, List.nodup_cons] at hnodup
    have hrest : ∀ e' ∈ rest, e.1 ≠ e'.1 := by
      intro e' he' heq
      exact hnodup.1 (List.mem_map.mpr ⟨e', he', heq.symm⟩)
    rw [List.foldl_cons]
    by_cases hempty :
        (e.2.filter (phraseMatches toLowerCase q e.1)) = []
    · have hstep : filterReducer toLowerCase q acc e = acc := by
        simp [filterReducer, hempty]
      rw [hstep, ih acc hnodup.2 (fun a ha e' he' => hnew a ha e' (List.mem_cons_of_mem _ he'))]
      have hempty' := hempty
      unfold phraseMatches at hempty'
      simp [List.filter_cons, hempty']
    · have hpos : (e.2.filter (phraseMatches toLowerCase q e.1)).length > 0 :=
        List.length_pos.mpr hempty
      have hstep : filterReducer toLowerCase q acc e
          = acc ++ [(e.1, e.2.filter (phraseMatches toLowerCase q e.1))] := by
        simp only [filterReducer, hpos, if_true]
        exact objSet_of_new_key acc _ _ (fun a ha => hnew a ha e (List.mem_cons_self _ _))
      rw [hstep, ih _ hnodup.2]
      · have hempty' := hempty
        unfold phraseMatches at hempty' ⊢
        simp [List.filter_cons, hempty']
      · intro a ha e' he'
        rcases List.mem_append.mp ha with ha | ha
        · exact hnew a ha e' (List.mem_cons_of_mem _ he')
        · simp only [List.mem_singleton] at ha
          rw [ha]
          exact hrest e' he'

theorem filteredCategories_eq_filterAsSpecified (toLowerCase : String → String)
    (q : String) : filteredCategories toLowerCase q = filterAsSpecified toLowerCase q := by
  unfold filteredCategories filterAsSpecified
  rw [foldl_filterReducer toLowerCase q PHRASE_CATEGORIES [] (by decide) (by simp)]
  simp

theorem mem_pairsOf (categories : List (String × List String)) (category phrase : String) :
    (category, phrase) ∈ pairsOf categories ↔
      ∃ phrases, (category, phrases) ∈ categories ∧ phrase ∈ phrases := by
  unfold pairsOf
  simp only [List.mem_flatMap, List.mem_map, Prod.mk.injEq]
  constructor
  · rintro ⟨e, he, p, hp, hc, rfl⟩
    exact ⟨e.2, by rw [← hc]; exact he, hp⟩
  · rintro ⟨phrases, he, hp⟩
    exact ⟨(category, phrases), he, phrase, hp, rfl, rfl⟩

theorem mem_pairsOf_filterAsSpecified (toLowerCase : String → String) (q : String)
    (category phrase : String) :
    (category, phrase) ∈ pairsOf (filterAsSpecified toLowerCase q) ↔
      (category, phrase) ∈ pairsOf PHRASE_CATEGORIES ∧
      (jsIncludes (toLowerCase phrase) (toLowerCase q) = true ∨
        jsIncludes (toLowerCase category) (toLowerCase q) = true) := by
  rw [mem_pairsOf, mem_pairsOf]
  unfold filterAsSpecified
  simp only [List.mem_filter, List.mem_map]
  constructor
  · rintro ⟨phrases, ⟨⟨e, he, heq⟩, _⟩, hp⟩
    rw [Prod.mk.injEq] at heq
    obtain ⟨hc, hps⟩ := heq
    rw [← hps, List.mem_filter] at hp
    refine ⟨⟨e.2, by rw [← hc]; exact he, hp.1⟩, ?_⟩
    rw [← hc]
    simpa using hp.2
  · rintro ⟨⟨phrases, he, hp⟩, hm⟩
    have hin : phrase ∈ phrases.filter fun phrase =>
        jsIncludes (toLowerCase phrase) (toLowerCase q) ||
        jsIncludes (toLowerCase category) (toLowerCase q) := by
      rw [List.mem_filter]
      exact ⟨hp, by simpa using hm⟩
    refine ⟨_, ⟨⟨(category, phrases), he, rfl⟩, ?_⟩, hin⟩
    simp only [Bool.not_eq_true', List.isEmpty_eq_false]
    exact List.ne_nil_of_mem hin

theorem filterAsSpecified_congr (lower₁ lower₂ : String → String) (q₁ q₂ : String)
    (hq : lower₁ q₁ = lower₂ q₂)
    (h : ∀ e ∈ PHRASE_CATEGORIES, lower₁ e.1 = lower₂ e.1 ∧ ∀ p ∈ e.2, lower₁ p = lower₂ p) :
    filterAsSpecified lower₁ q₁ = filterAsSpecified lower₂ q₂ := by
  unfold filterAsSpecified
  congr 1
  apply List.map_congr_left
  intro e he
  rw [Prod.mk.injEq]
  refine ⟨rfl, ?_⟩
  apply List.filter_congr
  intro p hp
  rw [hq, (h e he).1, (h e he).2 p hp]

theorem phrases_are_ascii :
    ∀ e ∈ PHRASE_CATEGORIES,
      (∀ c ∈ e.1.data, c.toNat < 128) ∧ ∀ p ∈ e.2, ∀ c ∈ p.data, c.toNat < 128 := by
  decide

theorem toLower_ascii (c : Char) (h : c.toLower.toNat < 128) : c.toNat < 128 := by
  by_cases hr : c.toNat ≥ 65 ∧ c.toNat ≤ 90
  · omega
  · simpa [Char.toLower, hr] using h

theorem ascii_of_asciiToLowerCase (q target : String)
    (hq : asciiToLowerCase q = target) (ht : ∀ c ∈ target.data, c.toNat < 128) :
    ∀ c ∈ q.data, c.toNat < 128 := by
  intro c hc
  apply toLower_ascii
  apply ht
  rw [← hq]
  exact List.mem_map.mpr ⟨c, hc, rfl⟩

theorem jsIncludes_trans (a b c : String) (hab : jsIncludes b a = true)
    (hbc : jsIncludes c b = true) : jsIncludes c a = true := by
  unfold jsIncludes at *
  simp only [decide_eq_true_eq] at *
  exact hab.trans hbc

theorem jsIncludes_empty (s : String) : jsIncludes s "" = true := by
  unfold jsIncludes
  simp

/-- C11: for every query `q` (and whatever the built-in `toLowerCase` does), the
phrase filter returns the categories of `PHRASE_CATEGORIES` in their order, each
with its phrases, in their order, whose lowercased text or whose lowercased
category contains the lowercased `q`, without the categories left empty; so no
returned category has an empty phrase list, and a (category, phrase) pair is
returned exactly when it is a pair of `PHRASE_CATEGORIES` and the lowercased
phrase or the lowercased category contains the lowercased `q`. -/
theorem filteredCategories_returns_matching_pairs (toLowerCase : String → String)
    (q : String) :
    filteredCategories toLowerCase q = filterAsSpecified toLowerCase q ∧
    (∀ e ∈ filteredCategories toLowerCase q, e.2 ≠ []) ∧
    ∀ category phrase,
      (category, phrase) ∈ pairsOf (filteredCategories toLowerCase q) ↔
        (category, phrase) ∈ pairsOf PHRASE_CATEGORIES ∧
        (jsIncludes (toLowerCase phrase) (toLowerCase q) = true ∨
          jsIncludes (toLowerCase category) (toLowerCase q) = true) := by
  refine ⟨filteredCategories_eq_filterAsSpecified toLowerCase q, ?_, ?_⟩
  · rw [filteredCategories_eq_filterAsSpecified]
    intro e he
    unfold filterAsSpecified at he
    have h := (List.mem_filter.mp he).2
    simpa using h
  · intro category phrase
    rw [filteredCategories_eq_filterAsSpecified]
    exact mem_pairsOf_filterAsSpecified toLowerCase q category phrase

/-- An instance of C11: with the query "sharp" the pair of "Symptoms" and
"Is the pain sharp or dull?" is returned. -/
theorem filteredCategories_returns_matching_pairs_witness :
    ("Symptoms", "Is the pain sharp or dull?")
      ∈ pairsOf (filteredCategories asciiToLowerCase "sharp") :=
  ((filteredCategories_returns_matching_pairs asciiToLowerCase "sharp").2.2
    "Symptoms" "Is the pain sharp or dull?").mpr ⟨by decide, Or.inl (by decide)⟩

/-- C12: for a query that is "pain" in any letter case (its letters A to Z
lowercased, it reads "pain"), and a `toLowerCase` that lowercases ASCII strings
the way the built-in does, the phrase filter returns the single category
"Symptoms" with the three phrases "How would you rate your pain from 1 to 10?",
"Is the pain sharp or dull?", "Does the pain come and go?" in that order; these are
exactly the pairs of `PHRASE_CATEGORIES` whose lowercased phrase contains "pain". -/
theorem filteredCategories_pain (toLowerCase : String → String) (q : String)
    (hlower : LowersAscii toLowerCase) (hq : asciiToLowerCase q = "pain") :
    filteredCategories toLowerCase q =
      [("Symptoms",
        ["How would you rate your pain from 1 to 10?",
         "Is the pain sharp or dull?",
         "Does the pain come and go?"])] ∧
    ∀ x ∈ pairsOf PHRASE_CATEGORIES,
      (jsIncludes (asciiToLowerCase x.2) "pain" = true ↔
        x ∈ pairsOf
          [("Symptoms",
            ["How would you rate your pain from 1 to 10?",
             "Is the pain sharp or dull?",
             "Does the pain come and go?"])]) := by
  constructor
  · have hascii : ∀ c ∈ q.data, c.toNat < 128 :=
      ascii_of_asciiToLowerCase q "pain" hq (by decide)
    have hq' : toLowerCase q = asciiToLowerCase "pain" := by
      rw [hlower q hascii, hq]
      decide
    rw [filteredCategories_eq_filterAsSpecified,
      filterAsSpecified_congr toLowerCase asciiToLowerCase q "pain" hq'
        (fun e he => ⟨hlower e.1 (phrases_are_ascii e he).1,
          fun p hp => hlower p ((phrases_are_ascii e he).2 p hp)⟩)]
    decide
  · decide

/-- An instance of C12: the query "PaIn". -/
theorem filteredCategories_pain_witness :
    LowersAscii asciiToLowerCase ∧ asciiToLowerCase "PaIn" = "pain" ∧
    filteredCategories asciiToLowerCase "PaIn" =
      [("Symptoms",
        ["How would you rate your pain from 1 to 10?",
         "Is the pain sharp or dull?",
         "Does the pain come and go?"])] :=
  ⟨fun _ _ => rfl, by decide,
   (filteredCategories_pain asciiToLowerCase "PaIn" (fun _ _ => rfl) (by decide)).1⟩

/-- C20: the phrase filter is monotone in the query: when the lowercased `q₁`
occurs in the lowercased `q₂`, every (category, phrase) pair returned for `q₂` is
returned for `q₁`; and the empty query (whose lowercase is the empty string)
returns `PHRASE_CATEGORIES` unchanged. -/
theorem filteredCategories_monotone (toLowerCase : String → String) (q₁ q₂ : String)
    (h : jsIncludes (toLowerCase q₂) (toLowerCase q₁) = true) :
    (∀ category phrase,
      (category, phrase) ∈ pairsOf (filteredCategories toLowerCase q₂) →
      (category, phrase) ∈ pairsOf (filteredCategories toLowerCase q₁)) ∧
    (toLowerCase "" = "" → filteredCategories toLowerCase "" = PHRASE_CATEGORIES) := by
  constructor
  · intro category phrase
    rw [filteredCategories_eq_filterAsSpecified, filteredCategories_eq_filterAsSpecified,
      mem_pairsOf_filterAsSpecified, mem_pairsOf_filterAsSpecified]
    rintro ⟨hmem, hm⟩
    refine ⟨hmem, ?_⟩
    rcases hm with hm | hm
    · exact Or.inl (jsIncludes_trans _ _ _ h hm)
    · exact Or.inr (jsIncludes_trans _ _ _ h hm)
  · intro h0
    rw [filteredCategories_eq_filterAsSpecified]
    unfold filterAsSpecified
    simp only [h0, jsIncludes_empty, Bool.or_self, List.filter_true]
    decide

/-- An instance of C20: "pain" occurs in "the pain", and the empty query
returns everything. -/
theorem filteredCategories_monotone_witness :
    jsIncludes (asciiToLowerCase "the Pain") (asciiToLowerCase "PAIN") = true ∧
    (∀ category phrase,
      (category, phrase) ∈ pairsOf (filteredCategories asciiToLowerCase "the Pain") →
      (category, phrase) ∈ pairsOf (filteredCategories asciiToLowerCase "PAIN")) ∧
    filteredCategories asciiToLowerCase "" = PHRASE_CATEGORIES :=
  ⟨by decide,
   (filteredCategories_monotone asciiToLowerCase "PAIN" "the Pain" (by decide)).1,
   (filteredCategories_monotone asciiToLowerCase "PAIN" "the Pain" (by decide)).2
     (by decide)⟩

/-! ## Loading the session, opening the phrase book -/

/-- C13: when `Translation` mounts without a usable `sessionId` (null or empty),
it navigates to the Dashboard at once, `session` stays null and `Session.get` is
not called.  With a `sessionId`, `Session.get` is called once and awaited; if it
fails, the page navigates to the Dashboard, `session` stays null and no second
lookup is made (nothing is awaited any more); if it succeeds, the returned
record is stored in `session` and no navigation is requested. -/
theorem loadSession_stores_or_redirects (env : Env) :
    ((∀ id, env.sessionId = some id → jsTruthy id = false) →
      (mount env).log = [Effect.navigate (env.createPageUrl "Dashboard")] ∧
      (mount env).st.session = none ∧ (mount env).getPending = false) ∧
    (∀ id, env.sessionId = some id → jsTruthy id = true →
      ((mount env).log = [Effect.sessionGet id] ∧ (mount env).st.session = none ∧
        (mount env).getPending = true) ∧
      (∀ error,
        (step env (mount env) (.sessionSettled (.rejected error))).log
          = [Effect.sessionGet id, Effect.navigate (env.createPageUrl "Dashboard")] ∧
        (step env (mount env) (.sessionSettled (.rejected error))).st.session = none ∧
        (step env (mount env) (.sessionSettled (.rejected error))).getPending = false) ∧
      (∀ sessionData,
        (step env (mount env) (.sessionSettled (.resolved sessionData))).st.session
          = some sessionData ∧
        (step env (mount env) (.sessionSettled (.resolved sessionData))).log
          = [Effect.sessionGet id] ∧
        (step env (mount env) (.sessionSettled (.resolved sessionData))).getPending
          = false)) := by
  constructor
  · intro h
    unfold mount mountEffect
    cases hs : env.sessionId with
    | none => simp [State.initial]
    | some sid => simp [h sid hs, State.initial]
  · intro id hid htr
    have hm : mount env =
        { st := State.initial, log := [Effect.sessionGet id], getPending := true } := by
      unfold mount mountEffect
      simp [hid, htr]
    rw [hm]
    refine ⟨⟨rfl, rfl, rfl⟩, ?_, ?_⟩
    · intro error
      simp [step, loadSession.settle, State.initial]
    · intro sessionData
      simp [step, loadSession.settle]

/-- Instances of C13: the failed lookup of session "s1", and a page opened
without a session id. -/
theorem loadSession_stores_or_redirects_witness :
    (step sampleEnv (mount sampleEnv) (.sessionSettled (.rejected "not found"))).log
      = [Effect.sessionGet "s1", Effect.navigate "/Dashboard"] ∧
    (mount { sampleEnv with sessionId := none }).log = [Effect.navigate "/Dashboard"] :=
  ⟨((loadSession_stores_or_redirects sampleEnv).2 "s1" rfl (by decide)).2.1
      "not found" |>.1,
   ((loadSession_stores_or_redirects { sampleEnv with sessionId := none }).1
      (fun _ h => by cases h)).1⟩

theorem splitChars_of_not_mem (sep : Char) (a : List Char) (h : sep ∉ a) :
    splitChars sep a = [a] := by
  induction a with
  | nil => rfl
  | cons c cs ih =>
    have hc : c ≠ sep := fun e => h (e ▸ List.mem_cons_self _ _)
    have hcs : sep ∉ cs := fun m => h (List.mem_cons_of_mem _ m)
    simp [splitChars, hc, ih hcs]

theorem splitChars_append_sep (sep : Char) (a b : List Char) (h : sep ∉ a) :
    splitChars sep (a ++ sep :: b) = a :: splitChars sep b := by
  induction a with
  | nil => simp [splitChars]
  | cons c cs ih =>
    have hc : c ≠ sep := fun e => h (e ▸ List.mem_cons_self _ _)
    have hcs : sep ∉ cs := fun m => h (List.mem_cons_of_mem _ m)
    simp [splitChars, hc, ih hcs]

theorem searchOf_path_query (path query : List Char)
    (hpath : ∀ c ∈ path, c ≠ '#' ∧ c ≠ '?') (hquery : ∀ c ∈ query, c ≠ '#') :
    searchOf ⟨path ++ '?' :: query⟩ = query := by
  unfold searchOf
  have hall : ∀ c ∈ path ++ '?' :: query, (c != '#') = true := by
    intro c hc
    rcases List.mem_append.mp hc with hc | hc
    · simpa using (hpath c hc).1
    · rcases List.mem_cons.mp hc with hc | hc
      · rw [hc]; decide
      · simpa using hquery c hc
  rw [List.takeWhile_eq_self_iff.mpr hall,
    List.dropWhile_append_of_pos (fun c hc => by simpa using (hpath c hc).2)]
  simp

theorem pair_name (name value : List Char) (hname : ∀ c ∈ name, c ≠ '=') :
    ((name ++ '=' :: value).takeWhile fun c => c != '=') = name ∧
    (((name ++ '=' :: value).dropWhile fun c => c != '=').drop 1) = value := by
  have h : ∀ c ∈ name, (c != '=') = true := fun c hc => by simpa using hname c hc
  rw [List.takeWhile_append_of_pos h, List.dropWhile_append_of_pos h]
  simp

theorem urlParamsGet_of_two_pairs (decode : String → String) (hdec : DecodesPlain decode)
    (sid lang : String)
    (hsid : ∀ c ∈ sid.data, isReservedInQuery c = false)
    (hlang : ∀ c ∈ lang.data, isReservedInQuery c = false) :
    urlParamsGet decode (searchOf ("Phrases?sessionId=" ++ sid ++ "&language=" ++ lang))
        "sessionId" = some sid ∧
    urlParamsGet decode (searchOf ("Phrases?sessionId=" ++ sid ++ "&language=" ++ lang))
        "language" = some lang := by
  have hres : ∀ (s : String), (∀ c ∈ s.data, isReservedInQuery c = false) →
      ∀ c ∈ s.data, c ≠ '&' ∧ c ≠ '#' ∧ c ≠ '+' ∧ c ≠ '%' := by
    intro s hs c hc
    have := hs c hc
    simp only [isReservedInQuery, Bool.or_eq_false_iff, beq_eq_false_iff_ne] at this
    exact ⟨this.1.1.1, this.1.1.2, this.1.2, this.2⟩
  have hurl : "Phrases?sessionId=" ++ sid ++ "&language=" ++ lang
      = ⟨"Phrases".data ++ '?' ::
          (("sessionId".data ++ '=' :: sid.data) ++ '&' ::
            ("language".data ++ '=' :: lang.data))⟩ := by
    apply String.ext
    simp [String.data_append]
  have hn₁ : ∀ c ∈ "sessionId".data, c ≠ '#' := by decide
  have hn₂ : ∀ c ∈ "language".data, c ≠ '#' := by decide
  have ha₁ : '&' ∉ "sessionId".data := by decide
  have ha₂ : '&' ∉ "language".data := by decide
  have hsearch := searchOf_path_query "Phrases".data
    (("sessionId".data ++ '=' :: sid.data) ++ '&' :: ("language".data ++ '=' :: lang.data))
    (by decide)
    (by
      intro c hc
      rcases List.mem_append.mp hc with hc | hc
      · rcases List.mem_append.mp hc with hc | hc
        · exact hn₁ c hc
        · rcases List.mem_cons.mp hc with hc | hc
          · rw [hc]; decide
          · exact (hres sid hsid c hc).2.1
      · rcases List.mem_cons.mp hc with hc | hc
        · rw [hc]; decide
        · rcases List.mem_append.mp hc with hc | hc
          · exact hn₂ c hc
          · rcases List.mem_cons.mp hc with hc | hc
            · rw [hc]; decide
            · exact (hres lang hlang c hc).2.1)
  have hsplit : splitChars '&'
      (("sessionId".data ++ '=' :: sid.data) ++ '&' :: ("language".data ++ '=' :: lang.data))
      = [("sessionId".data ++ '=' :: sid.data), ("language".data ++ '=' :: lang.data)] := by
    rw [splitChars_append_sep, splitChars_of_not_mem]
    · intro hm
      rcases List.mem_append.mp hm with hm | hm
      · exact ha₂ hm
      · rcases List.mem_cons.mp hm with hm | hm
        · revert hm; decide
        · exact (hres lang hlang _ hm).1 rfl
    · intro hm
      rcases List.mem_append.mp hm with hm | hm
      · exact ha₁ hm
      · rcases List.mem_cons.mp hm with hm | hm
        · revert hm; decide
        · exact (hres sid hsid _ hm).1 rfl
  have hp₁ := pair_name "sessionId".data sid.data (by decide)
  have hp₂ := pair_name "language".data lang.data (by decide)
  have hd₁ : decode ⟨"sessionId".data⟩ = "sessionId" := hdec "sessionId" (by decide)
  have hd₂ : decode ⟨"language".data⟩ = "language" := hdec "language" (by decide)
  have hd₃ : decode ⟨sid.data⟩ = sid :=
    hdec sid (fun c hc => ⟨(hres sid hsid c hc).2.2.1, (hres sid hsid c hc).2.2.2⟩)
  have hd₄ : decode ⟨lang.data⟩ = lang :=
    hdec lang (fun c hc => ⟨(hres lang hlang c hc).2.2.1, (hres lang hlang c hc).2.2.2⟩)
  have hne : ("sessionId" : String) ≠ "language" := by decide
  rw [hurl, hsearch]
  unfold urlParamsGet
  rw [hsplit]
  simp [List.filter_cons, List.findSome?_cons, hp₁.1, hp₁.2, hp₂.1, hp₂.2, hd₁, hd₂, hd₃,
    hd₄, hne]

/-- C16, as stated, fails: with the session language "Punjabi&Urdu" the page name
that `handleOpenPhrases` builds is "Phrases?sessionId=s1&language=Punjabi&Urdu",
whose query parameter `language` reads "Punjabi", not the current language; and
with no language in the URL of `Translation` (null) the parameter reads the
string "null". -/
theorem open_phrases_query_loses_language :
    (handleOpenPhrases { sampleEnv with selectedLanguage := some "Punjabi&Urdu" }
        State.initial).log
      = [Effect.navigate "/Phrases?sessionId=s1&language=Punjabi&Urdu"] ∧
    urlParamsGet (fun s => s) (searchOf "Phrases?sessionId=s1&language=Punjabi&Urdu")
        "language" = some "Punjabi" ∧
    (handleOpenPhrases { sampleEnv with selectedLanguage := none } State.initial).log
      = [Effect.navigate "/Phrases?sessionId=s1&language=null"] ∧
    urlParamsGet (fun s => s) (searchOf "Phrases?sessionId=s1&language=null")
        "language" = some "null" := by
  decide

/-- C16, amended: `handleOpenPhrases` leaves every cell of the state as it is
(`activeUser`, `isListening`, `isTranslating`, `clinicianText`, `patientText`,
`sessionActive`, `session`), is fulfilled, and makes a single call, so no
persistence and no Translate call: one `navigate` to `createPageUrl` of the page
name "Phrases?sessionId=" followed by the session id, "&language=" and the
language, unescaped, a null value printed as "null".  When the session id and the
language are strings without the characters "&", "#", "+" and "%", the query of
that page name, read the way the pages read their parameters, gives the session
id as `sessionId` and the language as `language`. -/
theorem handleOpenPhrases_only_navigates (env : Env) (st : State)
    (decode : String → String) :
    (handleOpenPhrases env st).st = st ∧
    (handleOpenPhrases env st).completion = .ok () ∧
    (handleOpenPhrases env st).log =
      [Effect.navigate (env.createPageUrl
        ("Phrases?sessionId=" ++ env.sessionId.getD "null" ++ "&language=" ++
          env.selectedLanguage.getD "null"))] ∧
    (handleOpenPhrases env st).log.countP Effect.isInvokeLLM = 0 ∧
    (handleOpenPhrases env st).log.countP Effect.isSessionUpdate = 0 ∧
    ∀ sid lang, env.sessionId = some sid → env.selectedLanguage = some lang →
      DecodesPlain decode →
      (∀ c ∈ sid.data, isReservedInQuery c = false) →
      (∀ c ∈ lang.data, isReservedInQuery c = false) →
      (handleOpenPhrases env st).log =
        [Effect.navigate (env.createPageUrl
          ("Phrases?sessionId=" ++ sid ++ "&language=" ++ lang))] ∧
      urlParamsGet decode (searchOf ("Phrases?sessionId=" ++ sid ++ "&language=" ++ lang))
        "sessionId" = some sid ∧
      urlParamsGet decode (searchOf ("Phrases?sessionId=" ++ sid ++ "&language=" ++ lang))
        "language" = some lang := by
  have hlog : (handleOpenPhrases env st).log =
      [Effect.navigate (env.createPageUrl
        ("Phrases?sessionId=" ++ env.sessionId.getD "null" ++ "&language=" ++
          env.selectedLanguage.getD "null"))] := by
    have hstr : ∀ v : Option String, jsStr v = v.getD "null" := by
      intro v
      cases v <;> rfl
    simp only [handleOpenPhrases, hstr]
  refine ⟨rfl, rfl, hlog, ?_, ?_, ?_⟩
  · simp [hlog, Effect.isInvokeLLM]
  · simp [hlog, Effect.isSessionUpdate]
  · intro sid lang hsid hlang hdec hsidc hlangc
    refine ⟨?_, urlParamsGet_of_two_pairs decode hdec sid lang hsidc hlangc⟩
    rw [hlog, hsid, hlang]
    rfl

/-- An instance of the amended C16: session "s1", language "Polish". -/
theorem handleOpenPhrases_only_navigates_witness :
    DecodesPlain (fun s => s) ∧
    (handleOpenPhrases sampleEnv State.initial).log
      = [Effect.navigate (sampleEnv.createPageUrl
          ("Phrases?sessionId=" ++ "s1" ++ "&language=" ++ "Polish"))] ∧
    urlParamsGet (fun s => s) (searchOf ("Phrases?sessionId=" ++ "s1" ++ "&language=" ++ "Polish"))
      "sessionId" = some "s1" ∧
    urlParamsGet (fun s => s) (searchOf ("Phrases?sessionId=" ++ "s1" ++ "&language=" ++ "Polish"))
      "language" = some "Polish" :=
  ⟨fun _ _ => rfl,
   (handleOpenPhrases_only_navigates sampleEnv State.initial (fun s => s)).2.2.2.2.2
      "s1" "Polish" rfl rfl (fun _ _ => rfl) (by decide) (by decide)⟩

/-! ## The speech button -/

theorem simulatedSpeech_not_blank (u : UserType) :
    ¬ ∀ c ∈ (simulatedSpeech u).data, isJsWhiteSpace c = true := by
  cases u <;> decide

theorem setPressTime_calls (w : World) (side : UserType) (v : Option Nat) :
    (w.setPressTime side v).calls = w.calls := by
  cases side <;> rfl

theorem setPressTime_log (w : World) (side : UserType) (v : Option Nat) :
    (w.setPressTime side v).log = w.log := by
  cases side <;> rfl

theorem handleMouseUp_calls_log (side : UserType) (now : Nat) (w : World) :
    (handleMouseUp side now w).calls = w.calls ∧ (handleMouseUp side now w).log = w.log := by
  unfold handleMouseUp
  split
  · exact ⟨rfl, rfl⟩
  · split
    · simp only []
      split
      · exact ⟨setPressTime_calls _ _ _, setPressTime_log _ _ _⟩
      · exact ⟨rfl, rfl⟩
    · exact ⟨rfl, rfl⟩

theorem timeout_ignores_pressTime (env : Env) (w w' : World) (hst : w'.st = w.st)
    (ht : w'.timers = w.timers) (hc : w'.calls = w.calls) (hl : w'.log = w.log) :
    (step env w' .timeout).st = (step env w .timeout).st ∧
    (step env w' .timeout).timers = (step env w .timeout).timers ∧
    (step env w' .timeout).calls = (step env w .timeout).calls ∧
    (step env w' .timeout).log = (step env w .timeout).log := by
  simp only [step, ht]
  cases w.timers with
  | nil => exact ⟨hst, ht, hc, hl⟩
  | cons u rest =>
    simp [timerCallback, setPressTime_st, setPressTime_timers, setPressTime_calls,
      setPressTime_log, hst, hc, hl]

/-- C15: a press on an enabled `SpeechButton` of user type `u` runs
`onSpeechStart(u)` (here `handleSpeechStart`) at once and sets exactly one timer,
of 2000 ms, leaving the pending translations alone; the callback of that timer
runs `onSpeechEnd(u, utterance)` with the fixed clinician sentence for the
clinician and the fixed patient sentence otherwise; neither sentence is blank,
so that end-capture calls `InvokeLLM` and waits for it; a press on a disabled
button changes nothing and calls nothing. -/
theorem press_starts_capture_and_schedules_end (env : Env) (u : UserType) (now : Nat)
    (w : World) :
    ((handleMouseDown false u now w).st = handleSpeechStart u w.st ∧
      (handleMouseDown false u now w).timers = w.timers ++ [u] ∧
      (handleMouseDown false u now w).log = w.log ++ [Effect.setTimeout u 2000] ∧
      (handleMouseDown false u now w).calls = w.calls) ∧
    (simulatedSpeech .clinician = "Hello, I'm Dr. Smith. What brings you in today?" ∧
      simulatedSpeech .patient = "I have been experiencing chest pain since yesterday.") ∧
    ((timerCallback env u w).st = (handleSpeechEnd.call env u (simulatedSpeech u) w.st).st ∧
      (¬ ∀ c ∈ (simulatedSpeech u).data, isJsWhiteSpace c = true) ∧
      (handleSpeechEnd.call env u (simulatedSpeech u) w.st).awaiting.isSome = true ∧
      (timerCallback env u w).calls = w.calls ++ [u] ∧
      (timerCallback env u w).log.countP Effect.isInvokeLLM
        = w.log.countP Effect.isInvokeLLM + 1) ∧
    handleMouseDown true u now w = w := by
  have hnb := simulatedSpeech_not_blank u
  refine ⟨?_, ⟨rfl, rfl⟩, ⟨?_, hnb, ?_, ?_, ?_⟩, ?_⟩
  · cases u <;> simp [handleMouseDown, World.setPressTime]
  · simp [timerCallback, setPressTime_st]
  · rw [call_of_not_blank env u _ _ hnb]
    cases u <;> simp [translateText.call]
  · simp only [timerCallback, setPressTime_calls]
    rw [call_of_not_blank env u _ _ hnb]
    cases u <;> simp [translateText.call]
  · simp only [timerCallback, setPressTime_log]
    rw [call_of_not_blank env u _ _ hnb]
    cases u <;> simp [translateText.call, Effect.isInvokeLLM, List.countP_cons]
  · simp [handleMouseDown]

/-- C17: after an accepted press at time `t₀`, a release at any time `t₁`
(`handleMouseUp`), however short the hold, changes neither the state of the page
nor the pending timers, the pending translations or the calls made: neither
`onSpeechStart` nor `onSpeechEnd` runs and the timer is not cancelled.  When the
next timer fires the page does what it would have done without the release, and
if the press's timer is the only one, that is `onSpeechEnd` with the canned
utterance. -/
theorem release_neither_calls_nor_cancels (env : Env) (u : UserType) (t₀ t₁ : Nat)
    (w : World) :
    ((handleMouseUp u t₁ (handleMouseDown false u t₀ w)).st
        = (handleMouseDown false u t₀ w).st ∧
      (handleMouseUp u t₁ (handleMouseDown false u t₀ w)).timers
        = w.timers ++ [u] ∧
      (handleMouseUp u t₁ (handleMouseDown false u t₀ w)).calls = w.calls ∧
      (handleMouseUp u t₁ (handleMouseDown false u t₀ w)).log
        = (handleMouseDown false u t₀ w).log) ∧
    ((step env (handleMouseUp u t₁ (handleMouseDown false u t₀ w)) .timeout).st
        = (step env (handleMouseDown false u t₀ w) .timeout).st ∧
      (step env (handleMouseUp u t₁ (handleMouseDown false u t₀ w)) .timeout).calls
        = (step env (handleMouseDown false u t₀ w) .timeout).calls ∧
      (step env (handleMouseUp u t₁ (handleMouseDown false u t₀ w)) .timeout).log
        = (step env (handleMouseDown false u t₀ w) .timeout).log) ∧
    (w.timers = [] →
      (step env (handleMouseUp u t₁ (handleMouseDown false u t₀ w)) .timeout).st
        = (handleSpeechEnd.call env u (simulatedSpeech u) (handleSpeechStart u w.st)).st ∧
      (step env (handleMouseUp u t₁ (handleMouseDown false u t₀ w)) .timeout).calls
        = w.calls ++ [u]) := by
  have hdown : (handleMouseDown false u t₀ w).st = handleSpeechStart u w.st ∧
      (handleMouseDown false u t₀ w).timers = w.timers ++ [u] ∧
      (handleMouseDown false u t₀ w).calls = w.calls := by
    cases u <;> simp [handleMouseDown, World.setPressTime]
  have hst := handleMouseUp_st u t₁ (handleMouseDown false u t₀ w)
  have htm := handleMouseUp_timers u t₁ (handleMouseDown false u t₀ w)
  have hcl := handleMouseUp_calls_log u t₁ (handleMouseDown false u t₀ w)
  have hfire := timeout_ignores_pressTime env (handleMouseDown false u t₀ w)
    (handleMouseUp u t₁ (handleMouseDown false u t₀ w)) hst htm hcl.1 hcl.2
  refine ⟨⟨hst, by rw [htm, hdown.2.1], by rw [hcl.1, hdown.2.2], hcl.2⟩,
    ⟨hfire.1, hfire.2.2.1, hfire.2.2.2⟩, ?_⟩
  intro hempty
  rw [hfire.1, hfire.2.2.1]
  have hnb := simulatedSpeech_not_blank u
  simp only [step, hdown.2.1, hempty, List.nil_append, timerCallback, setPressTime_st,
    setPressTime_calls, hdown.1, hdown.2.2, true_and]
  rw [call_of_not_blank env u _ _ hnb]
  cases u <;> simp [translateText.call]

/-- An instance of C17: the clinician releases 100 ms after pressing; the timer
then still ends the capture and starts the translation. -/
theorem release_neither_calls_nor_cancels_witness :
    (step sampleEnv
      (handleMouseUp .clinician 1700000000100
        (handleMouseDown false .clinician 1700000000000
          { st := { session := some sampleSession } }))
      .timeout).calls = [.clinician] ∧
    (handleMouseUp .clinician 1700000000100
        (handleMouseDown false .clinician 1700000000000
          { st := { session := some sampleSession } })).pressTimeClinician = none :=
  ⟨((release_neither_calls_nor_cancels sampleEnv .clinician 1700000000000 1700000000100
      { st := { session := some sampleSession } }).2.2 rfl).2,
   by decide⟩

/-- C18: in every state reachable from mounting, `activeUser` is non-null exactly
when `isListening` is true; so in a reachable state where a translation is in
progress and no capture is, `activeUser` is null. -/
theorem activeUser_set_iff_listening (env : Env) (events : List Event) :
    ((run env events).st.activeUser ≠ none ↔ (run env events).st.isListening = true) ∧
    ((run env events).st.isTranslating = true →
      (run env events).st.isListening = false →
      (run env events).st.activeUser = none) := by
  have hinv := run_listeningIffActive env events
  refine ⟨hinv.symm, ?_⟩
  intro _ hl
  by_contra hne
  have := hinv.mpr hne
  rw [hl] at this
  exact Bool.noConfusion this

/-- An instance of C18: while the clinician's sentence is translated,
`activeUser` is null. -/
theorem activeUser_set_iff_listening_witness :
    (run sampleEnv [.sessionSettled (.resolved sampleSession),
        .mouseDown .clinician 1700000000000, .timeout]).st.isTranslating = true ∧
    (run sampleEnv [.sessionSettled (.resolved sampleSession),
        .mouseDown .clinician 1700000000000, .timeout]).st.activeUser = none :=
  ⟨by decide,
   (activeUser_set_iff_listening sampleEnv [.sessionSettled (.resolved sampleSession),
      .mouseDown .clinician 1700000000000, .timeout]).2 (by decide) (by decide)⟩

/-- C19: `handleSpeechEnd(u, t)` sets `isListening` to false and `activeUser` to
null for every `u`, `t` and state, whoever the active user is.  On the sequence:
session loaded, the clinician presses twice (the second press is not disabled),
the first timer fires, the patient presses (not disabled), the patient is
listening with the second clinician timer still pending; when that timer fires,
the end-capture for the clinician resets the patient's listening while the
patient's own timer is still pending. -/
theorem stale_end_capture_resets_other_listener :
    (∀ (env : Env) (u : UserType) (t : String) (st : State),
      (handleSpeechEnd.call env u t st).st.isListening = false ∧
      (handleSpeechEnd.call env u t st).st.activeUser = none) ∧
    disabledProp .clinician (run sampleEnv [.sessionSettled (.resolved sampleSession),
      .mouseDown .clinician 1700000000000]).st = false ∧
    disabledProp .patient (run sampleEnv [.sessionSettled (.resolved sampleSession),
      .mouseDown .clinician 1700000000000, .mouseDown .clinician 1700000000900,
      .timeout]).st = false ∧
    ((run sampleEnv [.sessionSettled (.resolved sampleSession),
      .mouseDown .clinician 1700000000000, .mouseDown .clinician 1700000000900,
      .timeout, .mouseDown .patient 1700000002300]).st.isListening = true ∧
     (run sampleEnv [.sessionSettled (.resolved sampleSession),
      .mouseDown .clinician 1700000000000, .mouseDown .clinician 1700000000900,
      .timeout, .mouseDown .patient 1700000002300]).st.activeUser = some .patient ∧
     (run sampleEnv [.sessionSettled (.resolved sampleSession),
      .mouseDown .clinician 1700000000000, .mouseDown .clinician 1700000000900,
      .timeout, .mouseDown .patient 1700000002300]).timers = [.clinician, .patient]) ∧
    ((run sampleEnv [.sessionSettled (.resolved sampleSession),
      .mouseDown .clinician 1700000000000, .mouseDown .clinician 1700000000900,
      .timeout, .mouseDown .patient 1700000002300, .timeout]).st.isListening = false ∧
     (run sampleEnv [.sessionSettled (.resolved sampleSession),
      .mouseDown .clinician 1700000000000, .mouseDown .clinician 1700000000900,
      .timeout, .mouseDown .patient 1700000002300, .timeout]).st.activeUser = none ∧
     (run sampleEnv [.sessionSettled (.resolved sampleSession),
      .mouseDown .clinician 1700000000000, .mouseDown .clinician 1700000000900,
      .timeout, .mouseDown .patient 1700000002300, .timeout]).timers = [.patient]) :=
  ⟨fun env u t st => call_resets_turn_cells env u t st, by decide, by decide, by decide,
   by decide⟩

/-! ## The phrase page -/

theorem stepPhrases_keeps_oneInFlight (env : Env) (w : PhrasesWorld) (e : PhrasesEvent)
    (h : OneInFlight w) : OneInFlight (stepPhrases env w e) := by
  unfold OneInFlight at h ⊢
  cases e with
  | search value => simpa [stepPhrases] using h
  | click phrase =>
    by_cases hd : speakDisabled phrase w.st = true
    · simpa [stepPhrases, hd] using h
    · simp only [stepPhrases, hd, Bool.false_eq_true, if_false]
      have ht : w.st.isTranslating = false := by
        cases hx : w.st.isTranslating
        · rfl
        · simp [speakDisabled, hx] at hd
      rw [ht] at h
      simp only [Bool.false_eq_true, if_false, List.length_eq_zero] at h
      simp [translateAndSpeak.call, h]
  | llmSettled i o =>
    cases hget : w.calls.get? i with
    | none =>
      simp only [stepPhrases, hget]
      exact h
    | some phrase =>
      have hlt : i < w.calls.length := by
        rcases List.get?_eq_some.mp hget with ⟨hi, _⟩
        exact hi
      have hlen : w.calls.length = 1 := by
        cases hx : w.st.isTranslating
        · rw [hx] at h
          simp only [Bool.false_eq_true, if_false] at h
          omega
        · rw [hx] at h
          simpa using h
      simp only [stepPhrases, hget]
      cases o <;> simp [translateAndSpeak.settle, List.length_eraseIdx, hlt, hlen] <;> omega
  | timeout =>
    by_cases ht : w.timers = 0
    · simpa [stepPhrases, ht] using h
    · simpa [stepPhrases, ht] using h

theorem runPhrases_oneInFlight (env : Env) (events : List PhrasesEvent) :
    OneInFlight (runPhrases env events) := by
  unfold runPhrases
  have h0 : OneInFlight ({} : PhrasesWorld) := by simp [OneInFlight]
  generalize ({} : PhrasesWorld) = w at h0
  induction events generalizing w with
  | nil => exact h0
  | cons e es ih => exact ih _ (stepPhrases_keeps_oneInFlight env w e h0)

/-- C14: in every state of the phrase page reachable from mounting, at most one
`translateAndSpeak` call waits for `InvokeLLM`, and one does exactly when
`isTranslating` is true; in such a state the Speak button of every phrase is
disabled and a click on it changes nothing (no second `InvokeLLM` call); and when
the waiting call settles, with a translation or with an error, `isTranslating` is
false and no call is waiting. -/
theorem one_translation_in_flight (env : Env) (events : List PhrasesEvent) :
    (runPhrases env events).calls.length ≤ 1 ∧
    ((runPhrases env events).st.isTranslating = true ↔
      (runPhrases env events).calls ≠ []) ∧
    ((runPhrases env events).st.isTranslating = true →
      ∀ phrase, speakDisabled phrase (runPhrases env events).st = true ∧
        stepPhrases env (runPhrases env events) (.click phrase) = runPhrases env events) ∧
    (∀ i o, i < (runPhrases env events).calls.length →
      (stepPhrases env (runPhrases env events) (.llmSettled i o)).st.isTranslating = false ∧
      (stepPhrases env (runPhrases env events) (.llmSettled i o)).calls = []) := by
  have h := runPhrases_oneInFlight env events
  have h' := h
  unfold OneInFlight at h
  refine ⟨?_, ?_, ?_, ?_⟩
  · rw [h]; split <;> simp
  · rw [← List.length_pos, h]
    cases (runPhrases env events).st.isTranslating <;> simp
  · intro ht phrase
    have hd : speakDisabled phrase (runPhrases env events).st = true := by
      simp [speakDisabled, ht]
    exact ⟨hd, by simp [stepPhrases, hd]⟩
  · intro i o hi
    have hinv := stepPhrases_keeps_oneInFlight env _ (.llmSettled i o) h'
    have ht : (stepPhrases env (runPhrases env events) (.llmSettled i o)).st.isTranslating
        = false := by
      obtain ⟨phrase, hget⟩ : ∃ phrase, (runPhrases env events).calls.get? i = some phrase :=
        ⟨_, List.get?_eq_get hi⟩
      simp only [stepPhrases, hget]
      cases o <;> simp [translateAndSpeak.settle]
    refine ⟨ht, ?_⟩
    unfold OneInFlight at hinv
    rw [ht] at hinv
    simpa using hinv

/-- An instance of C14: while "Is the pain sharp or dull?" is translated, a click
on another phrase changes nothing; after the failure nothing is in flight. -/
theorem one_translation_in_flight_witness :
    (runPhrases sampleEnv [.click "Is the pain sharp or dull?"]).st.isTranslating = true ∧
    stepPhrases sampleEnv (runPhrases sampleEnv [.click "Is the pain sharp or dull?"])
        (.click "When did this start?")
      = runPhrases sampleEnv [.click "Is the pain sharp or dull?"] ∧
    (stepPhrases sampleEnv (runPhrases sampleEnv [.click "Is the pain sharp or dull?"])
        (.llmSettled 0 (.rejected "network"))).st.isTranslating = false :=
  ⟨by decide,
   ((one_translation_in_flight sampleEnv [.click "Is the pain sharp or dull?"]).2.2.1
      (by decide) "When did this start?").2,
   ((one_translation_in_flight sampleEnv [.click "Is the pain sharp or dull?"]).2.2.2
      0 (.rejected "network") (by decide)).1⟩

end HealthTranslate
